import Mathlib

/-!
Verification of the multi-broker trading server (`multi-broker-trading-server.py`)
and its broker adapters (`brokers/alpaca_broker.py`, `brokers/bybit_broker.py`,
`brokers/binance_broker.py`).

The Python code is shallowly embedded: dynamic values become `JValue`,
Python exceptions become the `Exc` error type threaded through `Except`,
network/file side effects become oracle fields of an `Env`/`Broker`
record together with an explicit trace of adapter calls, and numeric
values become `Rat`.
-/

/-- Python-level dynamic values (JSON-shaped), as passed through tool
arguments and tool results. -/
inductive JValue where
  | null : JValue
  | bool (b : Bool) : JValue
  | num (q : Rat) : JValue
  | str (s : String) : JValue
  | arr (xs : List JValue) : JValue
  | obj (fields : List (String × JValue)) : JValue

/-- Python exceptions relevant to the embedded code.  `notImplemented`
models `NotImplementedError` (handled specially by the tool executor),
`valueError` models `ValueError`, `keyError` models a `KeyError` raised
by a missing dict subscript, and `other` covers every other
`Exception`. -/
inductive Exc where
  | notImplemented (msg : String) : Exc
  | valueError (msg : String) : Exc
  | keyError (key : String) : Exc
  | other (msg : String) : Exc
deriving DecidableEq

/-- Python `str(e)` on an exception: `str(KeyError(k))` shows the quoted
key, the others show their message. -/
def Exc.msg : Exc → String
  | .notImplemented m => m
  | .valueError m => m
  | .keyError k => "'" ++ k ++ "'"
  | .other m => m

/-- A tool-call argument map (a Python dict, insertion ordered, keys
unique in practice). -/
abbrev Args := List (String × JValue)

/-- `d.get(k)` on a Python dict: `None` when absent. -/
def argGet (a : Args) (k : String) : Option JValue :=
  (a.find? (fun kv => kv.1 = k)).map (fun kv => kv.2)

/-- `d.get(k, default)` on a Python dict. -/
def argGetD (a : Args) (k : String) (dflt : JValue) : JValue :=
  (argGet a k).getD dflt

/-- `d[k]` on a Python dict: raises `KeyError` when absent. -/
def argIdx (a : Args) (k : String) : Except Exc JValue :=
  match argGet a k with
  | none => .error (.keyError k)
  | some v => .ok v

/-- Python truthiness of an optional number (`if percentage:` is false
for `None` and for `0`). -/
def pyTruthy : Option Rat → Bool
  | none => false
  | some q => decide (q ≠ 0)

/-- Python `v > x` for a dynamic `v` against a number: numbers compare
numerically, booleans coerce to 0/1, anything else raises `TypeError`. -/
def pyGtNum (v : JValue) (x : Rat) : Except Exc Bool :=
  match v with
  | .num q => .ok (decide (x < q))
  | .bool b => .ok (decide (x < (if b then (1 : Rat) else 0)))
  | _ => .error (.other "TypeError: unsupported comparison")

/-- Python `str(v)` as used inside f-strings for the values that occur
in the embedded messages. -/
def pyStr : JValue → String
  | .null => "None"
  | .bool true => "True"
  | .bool false => "False"
  | .num q => if q.den = 1 then toString q.num else toString q
  | .str s => s
  | .arr _ => "<list>"
  | .obj _ => "<dict>"

/-- JSON string escaping (backslash and double quote). -/
def jsonEscape (s : String) : String :=
  String.mk (s.data.foldr
    (fun c acc =>
      if c = '\\' then '\\' :: '\\' :: acc
      else if c = '"' then '\\' :: '"' :: acc
      else c :: acc) [])

mutual

/-- `json.dumps` on a `JValue` (Python default separators). -/
def dumps : JValue → String
  | .null => "null"
  | .bool true => "true"
  | .bool false => "false"
  | .num q => if q.den = 1 then toString q.num else toString q
  | .str s => "\"" ++ jsonEscape s ++ "\""
  | .arr xs => "[" ++ dumpsArr xs ++ "]"
  | .obj fs => "\x7b" ++ dumpsObj fs ++ "\x7d"

/-- Comma-joined serialization of array elements. -/
def dumpsArr : List JValue → String
  | [] => ""
  | [x] => dumps x
  | x :: y :: xs => dumps x ++ ", " ++ dumpsArr (y :: xs)

/-- Comma-joined serialization of object fields. -/
def dumpsObj : List (String × JValue) → String
  | [] => ""
  | [kv] => "\"" ++ jsonEscape kv.1 ++ "\": " ++ dumps kv.2
  | kv :: kv2 :: fs =>
      "\"" ++ jsonEscape kv.1 ++ "\": " ++ dumps kv.2 ++ ", " ++ dumpsObj (kv2 :: fs)

end

/-- The structured error result the executor produces:
`{"error": message}`. -/
def errObj (msg : String) : JValue := .obj [("error", .str msg)]

/-!
## Tool Executor (`multi-broker-trading-server.py`, `execute_tool`)
-/

/-- A venue-facing adapter method invocation performed by the executor
(dispatch trace; capability getters such as `get_max_leverage` are pure
attribute reads and are not traced). -/
inductive Call where
  | get_account : Call
  | get_positions : Call
  | close_position (symbol qty percentage : JValue) : Call
  | get_crypto_price (symbol : JValue) : Call
  | place_crypto_order (symbol side qty notional leverage : JValue) : Call
  | place_stock_order (symbol side qty notional order_type limit_price stop_price time_in_force : JValue) : Call
  | get_stock_quote (symbol : JValue) : Call
  | get_stock_bars (symbol timeframe : JValue) (start : Int) (limit : JValue) : Call
  | get_orders (status : JValue) : Call
  | cancel_order (order_id : JValue) : Call
  | cancel_all_orders : Call
  | get_market_status : Call
  | techAnalysis : Call
  | memoryRead : Call
  | memoryWrite : Call
  | memoryAppend : Call
  | memoryClear : Call

/-- A broker adapter as seen by the executor (`BaseBroker` interface).
Each venue-facing method is an oracle returning either a Python value
or a raised exception; the capability reporters
(`get_broker_name`, `supports_crypto_leverage`, `get_max_leverage`)
are pure. -/
structure Broker where
  name : String
  supports_crypto_leverage : Bool
  get_max_leverage : String → Int
  get_account : Except Exc JValue
  get_positions : Except Exc JValue
  close_position : JValue → JValue → JValue → Except Exc JValue
  get_crypto_price : JValue → Except Exc JValue
  place_crypto_order : JValue → JValue → JValue → JValue → JValue → Except Exc JValue
  place_stock_order : JValue → JValue → JValue → JValue → JValue → JValue → JValue → JValue → Except Exc JValue
  get_stock_quote : JValue → Except Exc JValue
  get_stock_bars : JValue → JValue → Int → JValue → Except Exc JValue
  get_orders : JValue → Except Exc JValue
  cancel_order : JValue → Except Exc JValue
  cancel_all_orders : Except Exc JValue
  get_market_status : Except Exc JValue

/-- Process environment of the server: the global broker slot, the
clock (Unix seconds, for the 30-day bar lookback), the technical
analysis body and the trading-memory file operations as oracles.
`techAnalysis` models the inner `try` body of the
`get_technical_indicators` branch (bar fetching plus the
pandas/yfinance floating-point indicator math, which has no exact
rational embedding); its argument order is (is_crypto, symbol,
timeframe). -/
structure Env where
  broker? : Option Broker
  now : Int
  techAnalysis : Bool → JValue → JValue → Except Exc JValue
  readMemory : Except Exc (Option String)
  writeMemory : JValue → Except Exc Unit
  appendMemory : JValue → Except Exc Unit
  clearMemory : Except Exc Unit

/-- Python `'/' in symbol or symbol.endswith('USDT') or symbol.endswith('USD')`
(line 387): raises `TypeError` on a non-string symbol. -/
def pyIsCrypto (v : JValue) : Except Exc Bool :=
  match v with
  | .str s => .ok (s.contains '/' || s.endsWith "USDT" || s.endsWith "USD")
  | _ => .error (.other "TypeError: argument of type is not iterable")

/-- `read_trading_memory` happy path: number the lines 1-based and
report the line count. -/
def numberedMemory (content : String) : JValue :=
  let lines := content.splitOn "\n"
  let numbered := String.intercalate "\n"
    (lines.enum.map (fun p => toString (p.1 + 1) ++ ": " ++ p.2))
  .obj [("content", .str numbered), ("line_count", .num lines.length)]

/-- The dispatch body of `execute_tool` (the contents of its `try`
block, lines 305-467): returns the Python return value or the raised
exception, together with the trace of adapter calls it performed. -/
def execute_tool_inner (env : Env) (b : Broker) (tool_name : String) (arguments : Args) :
    Except Exc JValue × List Call :=
  if tool_name = "get_account" then
    (b.get_account, [.get_account])
  else if tool_name = "get_all_positions" then
    (b.get_positions, [.get_positions])
  else if tool_name = "close_position" then
    match argIdx arguments "symbol" with
    | .error e => (.error e, [])
    | .ok sym =>
      let qty := argGetD arguments "qty" .null
      let pct := argGetD arguments "percentage" .null
      (b.close_position sym qty pct, [.close_position sym qty pct])
  else if tool_name = "get_crypto_latest_bar" then
    match argIdx arguments "symbol" with
    | .error e => (.error e, [])
    | .ok sym => (b.get_crypto_price sym, [.get_crypto_price sym])
  else if tool_name = "place_crypto_order" then
    let leverage := argGetD arguments "leverage" (.num 1)
    match pyGtNum leverage 1 with
    | .error e => (.error e, [])
    | .ok gt1 =>
      if gt1 && !b.supports_crypto_leverage then
        (.ok (errObj (b.name ++ " doesn't support leverage trading. " ++
          "Switch to Bybit or Binance for leverage trading.")), [])
      else
        let max_lev := b.get_max_leverage "crypto"
        match pyGtNum leverage (max_lev : Rat) with
        | .error e => (.error e, [])
        | .ok gtMax =>
          if gtMax then
            (.ok (errObj (b.name ++ " max leverage is " ++ toString max_lev ++ "x, " ++
              "you requested " ++ pyStr leverage ++ "x")), [])
          else
            match argIdx arguments "symbol" with
            | .error e => (.error e, [])
            | .ok sym =>
              match argIdx arguments "side" with
              | .error e => (.error e, [])
              | .ok side =>
                let qty := argGetD arguments "qty" .null
                let notional := argGetD arguments "notional" .null
                (b.place_crypto_order sym side qty notional leverage,
                 [.place_crypto_order sym side qty notional leverage])
  else if tool_name = "place_stock_order" then
    match argIdx arguments "symbol" with
    | .error e => (.error e, [])
    | .ok sym =>
      match argIdx arguments "side" with
      | .error e => (.error e, [])
      | .ok side =>
        let qty := argGetD arguments "qty" .null
        let notional := argGetD arguments "notional" .null
        let order_type := argGetD arguments "order_type" (.str "market")
        let limit_price := argGetD arguments "limit_price" .null
        let stop_price := argGetD arguments "stop_price" .null
        let tif := argGetD arguments "time_in_force" (.str "day")
        (b.place_stock_order sym side qty notional order_type limit_price stop_price tif,
         [.place_stock_order sym side qty notional order_type limit_price stop_price tif])
  else if tool_name = "get_stock_quote" then
    match argIdx arguments "symbol" with
    | .error e => (.error e, [])
    | .ok sym => (b.get_stock_quote sym, [.get_stock_quote sym])
  else if tool_name = "get_stock_bars" then
    match argIdx arguments "symbol" with
    | .error e => (.error e, [])
    | .ok sym =>
      match argIdx arguments "timeframe" with
      | .error e => (.error e, [])
      | .ok tf =>
        let start := env.now - 30 * 86400
        let lim := argGetD arguments "limit" (.num 100)
        (b.get_stock_bars sym tf start lim, [.get_stock_bars sym tf start lim])
  else if tool_name = "get_technical_indicators" then
    match argIdx arguments "symbol" with
    | .error e => (.error e, [])
    | .ok sym =>
      let tf := argGetD arguments "timeframe" (.str "1d")
      match pyIsCrypto sym with
      | .error e => (.error e, [])
      | .ok isC =>
        match env.techAnalysis isC sym tf with
        | .ok v => (.ok v, [.techAnalysis])
        | .error e => (.ok (errObj ("Technical analysis failed: " ++ e.msg)), [.techAnalysis])
  else if tool_name = "get_orders" then
    let status := argGetD arguments "status" (.str "all")
    (b.get_orders status, [.get_orders status])
  else if tool_name = "cancel_order" then
    match argIdx arguments "order_id" with
    | .error e => (.error e, [])
    | .ok oid => (b.cancel_order oid, [.cancel_order oid])
  else if tool_name = "cancel_all_orders" then
    (b.cancel_all_orders, [.cancel_all_orders])
  else if tool_name = "get_market_clock" then
    (b.get_market_status, [.get_market_status])
  else if tool_name = "read_trading_memory" then
    match env.readMemory with
    | .error e => (.error e, [.memoryRead])
    | .ok none => (.ok (.obj [("content", .str ""), ("line_count", .num 0)]), [.memoryRead])
    | .ok (some content) => (.ok (numberedMemory content), [.memoryRead])
  else if tool_name = "write_trading_memory" then
    match argIdx arguments "content" with
    | .error e => (.error e, [])
    | .ok c =>
      match env.writeMemory c with
      | .error e => (.error e, [.memoryWrite])
      | .ok _ => (.ok (.obj [("success", .bool true), ("message", .str "Memory updated")]), [.memoryWrite])
  else if tool_name = "append_trading_memory" then
    match argIdx arguments "content" with
    | .error e => (.error e, [])
    | .ok c =>
      match env.appendMemory c with
      | .error e => (.error e, [.memoryAppend])
      | .ok _ => (.ok (.obj [("success", .bool true), ("message", .str "Content appended")]), [.memoryAppend])
  else if tool_name = "clear_trading_memory" then
    match env.clearMemory with
    | .error e => (.error e, [.memoryClear])
    | .ok _ => (.ok (.obj [("success", .bool true), ("message", .str "Memory cleared")]), [.memoryClear])
  else
    (.ok (errObj ("Unknown tool: " ++ tool_name)), [])

/-- The names handled by the dispatch chain of `execute_tool`. -/
def dispatchToolNames : List String :=
  ["get_account", "get_all_positions", "close_position", "get_crypto_latest_bar",
   "place_crypto_order", "place_stock_order", "get_stock_quote", "get_stock_bars",
   "get_technical_indicators", "get_orders", "cancel_order", "cancel_all_orders",
   "get_market_clock", "read_trading_memory", "write_trading_memory",
   "append_trading_memory", "clear_trading_memory"]

/-- The `except` clauses of `execute_tool` (lines 469-475):
`NotImplementedError` becomes a "doesn't support this feature" error,
any other `Exception` becomes `{"error": str(e)}`. -/
def excToErrorMsg (b : Broker) : Exc → String
  | .notImplemented m => b.name ++ " doesn't support this feature: " ++ m
  | e => e.msg

/-- `execute_tool` (lines 298-475): guard for the uninitialized broker,
dispatch, and conversion of every raised exception into a structured
error result. -/
def execute_tool (env : Env) (tool_name : String) (arguments : Args) : JValue × List Call :=
  match env.broker? with
  | none => (errObj "Broker not initialized. Please configure broker credentials in Settings.", [])
  | some b =>
    match execute_tool_inner env b tool_name arguments with
    | (.ok v, t) => (v, t)
    | (.error e, t) => (errObj (excToErrorMsg b e), t)

/-!
## Adapter capability reporters (`brokers/*.py`)
-/

/-- `AlpacaBroker.get_max_leverage` (lines 335-338). -/
def alpacaMaxLeverage (asset_class : String) : Int :=
  if asset_class = "stock" then 2 else 1

/-- `BybitBroker.get_max_leverage` (lines 355-358). -/
def bybitMaxLeverage (asset_class : String) : Int :=
  if asset_class = "crypto" ∨ asset_class = "crypto_futures" then 100 else 1

/-- `BinanceBroker.get_max_leverage` (lines 334-337). -/
def binanceMaxLeverage (asset_class : String) : Int :=
  if asset_class = "crypto" ∨ asset_class = "crypto_futures" then 125 else 1

/-- A `Broker` record with the given capability reporters and the given
oracle for every venue-facing method (used to build concrete adapters:
the capability reporters are the per-adapter constants, the venue
methods are arbitrary). -/
def mkBroker (name : String) (supports : Bool) (maxLev : String → Int)
    (oracle : Except Exc JValue) : Broker where
  name := name
  supports_crypto_leverage := supports
  get_max_leverage := maxLev
  get_account := oracle
  get_positions := oracle
  close_position := fun _ _ _ => oracle
  get_crypto_price := fun _ => oracle
  place_crypto_order := fun _ _ _ _ _ => oracle
  place_stock_order := fun _ _ _ _ _ _ _ _ => oracle
  get_stock_quote := fun _ => oracle
  get_stock_bars := fun _ _ _ _ => oracle
  get_orders := fun _ => oracle
  cancel_order := fun _ => oracle
  cancel_all_orders := oracle
  get_market_status := oracle

/-!
## Symbol normalization (`normalize_symbol` of the three adapters)

Python strings are embedded as `List Char`; `s.replace(c, '')` for a
one-character pattern removes every occurrence of that character,
`s[:-k]` is `take (length - k)`, `s.endswith(t)` is `isSuffixOf`,
`s.upper()` is `map Char.toUpper`.
-/

/-- Python `s.replace(c, '')` for a single-character pattern. -/
def stripChar (c : Char) (l : List Char) : List Char :=
  l.filter (fun x => x ≠ c)

/-- The character list of `"USDT"`. -/
def usdtChars : List Char := ['U', 'S', 'D', 'T']

/-- The character list of `"USD"`. -/
def usdChars : List Char := ['U', 'S', 'D']

/-- `BybitBroker.normalize_symbol` (lines 360-371). -/
def bybitNormalizeSymbol (symbol : List Char) (asset_class : String) : List Char :=
  if asset_class = "crypto" ∨ asset_class = "crypto_futures" then
    let s1 := stripChar '-' (stripChar '/' symbol)
    let s2 := if !usdtChars.isSuffixOf s1 && !usdChars.isSuffixOf s1 then s1 ++ usdtChars else s1
    let s3 := if usdChars.isSuffixOf s2 && !usdtChars.isSuffixOf s2 then
        s2.take (s2.length - 3) ++ usdtChars
      else s2
    s3
  else symbol

/-- `BinanceBroker.normalize_symbol` (lines 339-350). -/
def binanceNormalizeSymbol (symbol : List Char) (asset_class : String) : List Char :=
  if asset_class = "crypto" ∨ asset_class = "crypto_futures" then
    let s1 := (stripChar '-' (stripChar '/' symbol)).map Char.toUpper
    if !usdtChars.isSuffixOf s1 then
      if usdChars.isSuffixOf s1 then s1.take (s1.length - 3) ++ usdtChars
      else s1 ++ usdtChars
    else s1
  else symbol

/-- `AlpacaBroker.normalize_symbol` (lines 340-353). -/
def alpacaNormalizeSymbol (symbol : List Char) (asset_class : String) : List Char :=
  if asset_class = "crypto" then
    if ¬ ('/' ∈ symbol) then
      if usdChars.isSuffixOf symbol then
        symbol.take (symbol.length - 3) ++ ['/', 'U', 'S', 'D']
      else if usdtChars.isSuffixOf symbol then
        symbol.take (symbol.length - 4) ++ ['/', 'U', 'S', 'D']
      else symbol
    else symbol
  else symbol

/-!
## `close_position` of the Bybit and Binance adapters
-/

/-- The caller-facing shape of a position as produced by
`get_positions` (only the fields `close_position` reads). -/
structure Pos where
  symbol : String
  qty : Rat
  side : String

/-- A Bybit futures position as returned by the venue
(`/v2/private/position/list`): only the fields the adapter reads. -/
structure BybitVenuePos where
  symbol : String
  size : Rat
  side : String

/-- A Binance futures position as returned by the venue
(`/fapi/v2/positionRisk`): only the fields the adapter reads. -/
structure BinanceVenuePos where
  symbol : String
  positionAmt : Rat

/-- `BybitBroker.get_positions` (lines 109-136), restricted to the
fields `close_position` consumes: positions with `size > 0`, signed
quantity, venue side `Buy`/`Sell` mapped to `long`/`short`. -/
def bybitGetPositions (venue : List BybitVenuePos) : List Pos :=
  (venue.filter (fun p => 0 < p.size)).map (fun p =>
    let side := if p.side = "Buy" then "long" else "short"
    { symbol := p.symbol, qty := if side = "long" then p.size else -p.size, side := side })

/-- `BinanceBroker.get_positions` (lines 100-126), restricted to the
fields `close_position` consumes: positions with nonzero amount, side
from the sign. -/
def binanceGetPositions (venue : List BinanceVenuePos) : List Pos :=
  (venue.filter (fun p => p.positionAmt ≠ 0)).map (fun p =>
    { symbol := p.symbol, qty := p.positionAmt,
      side := if (0 : Rat) < p.positionAmt then "long" else "short" })

/-- A network request issued by an adapter's `close_position`. -/
inductive NetReq where
  | getPositions : NetReq
  | createOrder (symbol side : String) (qty : Rat) (reduceOnly : Bool) : NetReq
deriving DecidableEq

/-- The order record a successful `close_position` submits and
reports (the venue-assigned order id is not modeled). -/
structure CloseResult where
  symbol : String
  side : String
  qty : Rat
deriving DecidableEq

/-- `BybitBroker.close_position` (lines 138-180): fetch positions over
the network, look up the symbol (`ValueError` if absent), compute the
close quantity (`percentage` truthy first, then `qty` truthy, else the
full position) and submit a reduce-only market order in the opposite
direction.  The trace lists the network requests in order. -/
def bybitClosePosition (venue : List BybitVenuePos) (symbol : String)
    (qty percentage : Option Rat) : Except Exc CloseResult × List NetReq :=
  let positions := bybitGetPositions venue
  match positions.find? (fun p => p.symbol = symbol) with
  | none => (.error (.valueError ("No position found for " ++ symbol)), [.getPositions])
  | some position =>
    let current_qty := |position.qty|
    let close_qty :=
      if pyTruthy percentage then current_qty * (percentage.getD 0 / 100)
      else if pyTruthy qty then min (qty.getD 0) current_qty
      else current_qty
    let close_side := if position.side = "long" then "Sell" else "Buy"
    (.ok { symbol := symbol, side := close_side, qty := close_qty },
     [.getPositions, .createOrder symbol close_side close_qty true])

/-- `BinanceBroker.close_position` (lines 128-168): the same structure
as the Bybit adapter with venue-specific side labels. -/
def binanceClosePosition (venue : List BinanceVenuePos) (symbol : String)
    (qty percentage : Option Rat) : Except Exc CloseResult × List NetReq :=
  let positions := binanceGetPositions venue
  match positions.find? (fun p => p.symbol = symbol) with
  | none => (.error (.valueError ("No position found for " ++ symbol)), [.getPositions])
  | some position =>
    let current_qty := |position.qty|
    let close_qty :=
      if pyTruthy percentage then current_qty * (percentage.getD 0 / 100)
      else if pyTruthy qty then min (qty.getD 0) current_qty
      else current_qty
    let close_side := if position.side = "long" then "SELL" else "BUY"
    (.ok { symbol := symbol, side := close_side, qty := close_qty },
     [.getPositions, .createOrder symbol close_side close_qty true])

/-!
## Request signing (`BybitBroker._generate_signature` /
`BybitBroker._make_request`, `BinanceBroker._make_request`)

Request parameters are embedded as insertion-ordered key/value string
lists (Python dicts preserve insertion order; the f-string
`f"{k}={v}"` stringification of values is taken as already done).
-/

/-- Python `d[k] = v` on a dict: update in place when the key exists,
append otherwise. -/
def dictSet (d : List (String × String)) (k v : String) : List (String × String) :=
  if (d.find? (fun kv => kv.1 = k)).isSome then
    d.map (fun kv => if kv.1 = k then (k, v) else kv)
  else d ++ [(k, v)]

/-- `'&'.join(f"{k}={v}" ...)`. -/
def serializeParams (ps : List (String × String)) : String :=
  String.intercalate "&" (ps.map (fun kv => kv.1 ++ "=" ++ kv.2))

/-- Python string `<`: lexicographic comparison by code point. -/
def pyStrLt : List Char → List Char → Bool
  | [], [] => false
  | [], _ :: _ => true
  | _ :: _, [] => false
  | c :: cs, d :: ds =>
    if c.val < d.val then true
    else if c = d then pyStrLt cs ds
    else false

/-- Python tuple `<` on (key, value) string pairs. -/
def pyPairLt (a b : String × String) : Bool :=
  pyStrLt a.1.data b.1.data || (a.1 = b.1 && pyStrLt a.2.data b.2.data)

/-- Stable insertion of a pair into an ascending list (the element
goes after every earlier element it does not strictly precede). -/
def insertSorted (a : String × String) : List (String × String) → List (String × String)
  | [] => [a]
  | b :: l => if pyPairLt a b then a :: b :: l else b :: insertSorted a l

/-- Python `sorted(params.items())`: a stable ascending sort,
lexicographic on the (key, value) pairs, which with unique keys is a
sort by key. -/
def sortParams : List (String × String) → List (String × String)
  | [] => []
  | a :: l => insertSorted a (sortParams l)

/-- The parameter dict of a signed Bybit request just before the
signature is computed (`_make_request`, lines 46-50): `api_key`,
`timestamp`, `recv_window` (5000) are added to the callers params. -/
def bybitSignedParams (params : List (String × String)) (api_key : String) (ts : Int) :
    List (String × String) :=
  dictSet (dictSet (dictSet params "api_key" api_key) "timestamp" (toString ts))
    "recv_window" "5000"

/-- The exact string Bybit's `_generate_signature` feeds to
HMAC-SHA256 (line 31): sorted `k=v` pairs joined by `&`. -/
def bybitSignMessage (params : List (String × String)) (api_key : String) (ts : Int) : String :=
  serializeParams (sortParams (bybitSignedParams params api_key ts))

/-- The Bybit signed-request parameters including the attached `sign`
value; `hmac` abstracts `hmac.new(secret, msg, sha256).hexdigest()`. -/
def bybitFinalParams (hmac : String → String → String) (secret : String)
    (params : List (String × String)) (api_key : String) (ts : Int) :
    List (String × String) :=
  dictSet (bybitSignedParams params api_key ts) "sign"
    (hmac secret (bybitSignMessage params api_key ts))

/-- The parameter dict of a signed Binance request just before the
signature is computed (`_make_request`, lines 52-54): `timestamp` and
`recvWindow` (5000) are appended. -/
def binanceSignedParams (params : List (String × String)) (ts : Int) :
    List (String × String) :=
  dictSet (dictSet params "timestamp" (toString ts)) "recvWindow" "5000"

/-- The exact string Binance's `_make_request` feeds to HMAC-SHA256
(line 55): `k=v` pairs joined by `&` in dict insertion order (not
sorted). -/
def binanceSignMessage (params : List (String × String)) (ts : Int) : String :=
  serializeParams (binanceSignedParams params ts)

/-- The Binance signed-request parameters including the attached
`signature` value. -/
def binanceFinalParams (hmac : String → String → String) (secret : String)
    (params : List (String × String)) (ts : Int) : List (String × String) :=
  dictSet (binanceSignedParams params ts) "signature"
    (hmac secret (binanceSignMessage params ts))

/-!
## Conversation Orchestrator (`_call_claude_with_tools`,
`_call_deepseek_with_tools`)

The model backends are oracles mapping the turn index and the current
message history to the next model response, so every possible sequence
of model responses is covered.  The loops are embedded with the
remaining loop iterations (`fuel`, initially `max_turns`) as the
recursion measure, and each call additionally reports how many model
round-trips it performed.
-/

/-- A content block of a Protocol A (Claude) assistant response. -/
inductive CBlock where
  | text (s : String) : CBlock
  | toolUse (id name : String) (input : Args) : CBlock

/-- A Protocol A model response: stop reason plus content blocks. -/
structure CResp where
  stop_reason : String
  content : List CBlock

/-- Message content in the Protocol A history: plain text, raw
assistant blocks, or a list of tool results (tool_use_id, serialized
result). -/
inductive CContent where
  | str (s : String) : CContent
  | blocks (bs : List CBlock) : CContent
  | results (rs : List (String × String)) : CContent

/-- A Protocol A history message. -/
structure CMsg where
  role : String
  content : CContent

/-- Line 514: the first text block's text, or `""`. -/
def extractFinalText (content : List CBlock) : String :=
  (content.findSome? (fun b => match b with | .text s => some s | _ => none)).getD ""

/-- Lines 520-530: one `tool_result` entry per `tool_use` block, in
block order, correlated by the block's id, carrying the JSON-dumped
executor result. -/
def claudeToolResults (env : Env) (blocks : List CBlock) : List (String × String) :=
  blocks.filterMap (fun b =>
    match b with
    | .toolUse id name input => some (id, dumps (execute_tool env name input).1)
    | _ => none)

/-- `_call_claude_with_tools` (lines 503-535).  Arguments after the
oracle: current turn index, remaining turns, history.  Returns the
final text and the number of model round-trips made. -/
def callClaudeWithTools (env : Env) (oracle : Nat → List CMsg → CResp) :
    Nat → Nat → List CMsg → String × Nat
  | _, 0, _ => ("Max turns reached.", 0)
  | t, fuel + 1, messages =>
    let r := oracle t messages
    if r.stop_reason = "end_turn" then (extractFinalText r.content, 1)
    else if r.stop_reason = "tool_use" then
      let messages' := messages ++
        [⟨"assistant", .blocks r.content⟩,
         ⟨"user", .results (claudeToolResults env r.content)⟩]
      let r2 := callClaudeWithTools env oracle (t + 1) fuel messages'
      (r2.1, r2.2 + 1)
    else
      let r2 := callClaudeWithTools env oracle (t + 1) fuel messages
      (r2.1, r2.2 + 1)

/-- A Protocol B (DeepSeek/OpenAI) tool call.  `args` is the result of
`json.loads(tool_call.function.arguments)`: a parsed argument map or a
raised parse error. -/
structure DToolCall where
  id : String
  name : String
  args : Except Exc Args

/-- A Protocol B assistant message. -/
structure DMessage where
  content : String
  tool_calls : List DToolCall

/-- A Protocol B history message: plain chat message, raw assistant
message, or a `role:"tool"` result keyed by call id. -/
inductive DMsg where
  | chat (role content : String) : DMsg
  | assistant (m : DMessage) : DMsg
  | tool (tool_call_id content : String) : DMsg

/-- Lines 556-565: execute each tool call in order, appending one
`role:"tool"` message per call; a `json.loads` failure raises after
the earlier appends are already in place. -/
def deepseekProcessCalls (env : Env) : List DToolCall → List DMsg → List DMsg × Option Exc
  | [], msgs => (msgs, none)
  | tc :: rest, msgs =>
    match tc.args with
    | .error e => (msgs, some e)
    | .ok args =>
      let result := (execute_tool env tc.name args).1
      deepseekProcessCalls env rest (msgs ++ [.tool tc.id (dumps result)])

/-- `_call_deepseek_with_tools` (lines 537-567).  Returns the final
text (or the exception a malformed tool-call argument string raises)
and the number of model round-trips made. -/
def callDeepseekWithTools (env : Env) (oracle : Nat → List DMsg → DMessage) :
    Nat → Nat → List DMsg → Except Exc String × Nat
  | _, 0, _ => (.ok "Max turns reached.", 0)
  | t, fuel + 1, messages =>
    let m := oracle t messages
    if m.tool_calls.isEmpty then (.ok m.content, 1)
    else
      match deepseekProcessCalls env m.tool_calls (messages ++ [.assistant m]) with
      | (_, some e) => (.error e, 1)
      | (msgs', none) =>
        let r2 := callDeepseekWithTools env oracle (t + 1) fuel msgs'
        (r2.1, r2.2 + 1)

/-!
## Autotrading audit log and scheduler loop
(`add_autotrading_log`, `autotrading_loop`)
-/

/-- An audit-log entry (timestamps are abstract). -/
structure LogEntry where
  timestamp : Nat
  message : String
  ty : String
deriving DecidableEq

/-- `add_autotrading_log` (lines 56-67): append, then keep only the
newest 500 entries when the capacity is exceeded. -/
def add_autotrading_log (logs : List LogEntry) (entry : LogEntry) : List LogEntry :=
  let l := logs ++ [entry]
  if 500 < l.length then l.drop (l.length - 500) else l

/-- Observable events of the autotrading loop: audit-log writes and
`time.sleep` calls (seconds). -/
inductive LoopEvent where
  | log (message ty : String) : LoopEvent
  | sleep (seconds : Nat) : LoopEvent
deriving DecidableEq

/-- Environment of the autotrading loop: per-iteration oracles for the
account fetch, the positions fetch and the AI call (each may raise),
the configured interval (`autotrading_config.get('interval', 60)`),
and the value of the `autotrading_active` flag as observed at the top
of each iteration. -/
structure AutoEnv where
  getAccount : Nat → Except Exc JValue
  getPositions : Nat → Except Exc JValue
  callAI : Nat → Except Exc String
  interval : Option Nat
  active : Nat → Bool

/-- One iteration of the `while` body of `autotrading_loop`
(lines 801-834): the `try` block fetches account and positions, logs
"Analyzing markets...", calls the AI, logs the truncated response and
sleeps the configured interval; any raised exception is logged and
followed by a fixed `time.sleep(60)`. -/
def autotradingIteration (env : AutoEnv) (i : Nat) : List LoopEvent :=
  match env.getAccount i with
  | .error e => [.log ("Auto-trading error: " ++ e.msg) "error", .sleep 60]
  | .ok _ =>
    match env.getPositions i with
    | .error e => [.log ("Auto-trading error: " ++ e.msg) "error", .sleep 60]
    | .ok _ =>
      .log "Analyzing markets..." "info" ::
      match env.callAI i with
      | .error e => [.log ("Auto-trading error: " ++ e.msg) "error", .sleep 60]
      | .ok resp =>
        [.log ("AI Response: " ++ resp.take 200 ++ "...") "info",
         .sleep (env.interval.getD 60)]

/-- The `while autotrading_active:` loop of `autotrading_loop`: the
flag is consulted only at the top of each iteration; an exhausted fuel
cuts the (possibly unbounded) event stream. -/
def autotradingRun (env : AutoEnv) : Nat → Nat → List LoopEvent
  | 0, _ => []
  | fuel + 1, i =>
    if env.active i then autotradingIteration env i ++ autotradingRun env fuel (i + 1)
    else [.log "Auto-trading loop ended" "info"]

/-!
## Claims
-/

/-- Claim C8: after every append the autotrading audit log holds at
most 500 entries; an append that would exceed the capacity evicts the
oldest entries first, and the remaining entries keep their relative
order (the result is always a suffix of the old log plus the new entry,
of length `min (n+1) 500`). -/
theorem c8_audit_log_bounded (logs : List LogEntry) (entry : LogEntry) :
    (add_autotrading_log logs entry).length ≤ 500 ∧
    add_autotrading_log logs entry <:+ logs ++ [entry] ∧
    (add_autotrading_log logs entry).length = min (logs.length + 1) 500 := by
  unfold add_autotrading_log
  by_cases h : 500 < (logs ++ [entry]).length
  · simp only [h, if_true]
    refine ⟨?_, List.drop_suffix _ _, ?_⟩
    · rw [List.length_drop]
      omega
    · rw [List.length_drop]
      simp only [List.length_append, List.length_singleton] at h ⊢
      omega
  · simp only [h, if_false]
    refine ⟨?_, List.suffix_refl _, ?_⟩
    · simp only [List.length_append, List.length_singleton] at h ⊢
      omega
    · simp only [List.length_append, List.length_singleton] at h ⊢
      omega

/-- Claim C9, counterexample to the 30-second fallback: in an
iteration whose account fetch raises, the scheduler logs the error and
sleeps 60 seconds — not the 30 seconds the claim states (no 30-second
sleep occurs at all) — and then continues with the next iteration. -/
theorem c9_counterexample :
    (autotradingIteration
        ⟨fun _ => .error (.other "boom"), fun _ => .ok .null, fun _ => .ok "hi",
         none, fun i => decide (i < 2)⟩ 0 =
      [.log "Auto-trading error: boom" "error", .sleep 60]) ∧
    LoopEvent.sleep 30 ∉
      autotradingIteration
        ⟨fun _ => .error (.other "boom"), fun _ => .ok .null, fun _ => .ok "hi",
         none, fun i => decide (i < 2)⟩ 0 ∧
    autotradingRun
        ⟨fun _ => .error (.other "boom"), fun _ => .ok .null, fun _ => .ok "hi",
         none, fun i => decide (i < 2)⟩ 3 0 =
      [.log "Auto-trading error: boom" "error", .sleep 60,
       .log "Auto-trading error: boom" "error", .sleep 60,
       .log "Auto-trading loop ended" "info"] := by
  refine ⟨rfl, ?_, rfl⟩
  decide

/-- Claim C9 as amended: an iteration in which an exception surfaces
(from the account fetch, the positions fetch or the model call) logs
the error and ends with a fixed 60-second fallback sleep (not the
configured interval, and not the 30 seconds the spec states); a normal
iteration ends with a sleep of the configured interval (default 60);
the loop continues into the next iteration whenever the stop flag is
still set at the top, regardless of exceptions, and stops exactly when
the flag is observed false at the top of an iteration. -/
theorem c9_scheduler_error_recovery (env : AutoEnv) (i fuel : Nat) :
    (((env.getAccount i).isOk = false ∨ (env.getPositions i).isOk = false ∨
        (env.callAI i).isOk = false) →
      (autotradingIteration env i).getLast? = some (.sleep 60) ∧
      ∃ msg, LoopEvent.log ("Auto-trading error: " ++ msg) "error" ∈ autotradingIteration env i) ∧
    (((env.getAccount i).isOk = true ∧ (env.getPositions i).isOk = true ∧
        (env.callAI i).isOk = true) →
      (autotradingIteration env i).getLast? = some (.sleep (env.interval.getD 60))) ∧
    (env.active i = true →
      autotradingRun env (fuel + 1) i =
        autotradingIteration env i ++ autotradingRun env fuel (i + 1)) ∧
    (env.active i = false →
      autotradingRun env (fuel + 1) i = [.log "Auto-trading loop ended" "info"]) := by
  refine ⟨?_, ?_, ?_, ?_⟩
  · intro h
    unfold autotradingIteration
    rcases hA : env.getAccount i with e | v
    · exact ⟨rfl, e.msg, by simp⟩
    · rcases hP : env.getPositions i with e | v2
      · exact ⟨rfl, e.msg, by simp⟩
      · rcases hC : env.callAI i with e | v3
        · exact ⟨rfl, e.msg, by simp⟩
        · rw [hA, hP, hC] at h
          simp [Except.isOk, Except.toBool] at h
  · intro h
    unfold autotradingIteration
    rcases hA : env.getAccount i with e | v
    · rw [hA] at h
      simp [Except.isOk, Except.toBool] at h
    · rcases hP : env.getPositions i with e | v2
      · rw [hP] at h
        simp [Except.isOk, Except.toBool] at h
      · rcases hC : env.callAI i with e | v3
        · rw [hC] at h
          simp [Except.isOk, Except.toBool] at h
        · rfl
  · intro h
    conv_lhs => rw [autotradingRun]
    rw [h]
    simp
  · intro h
    conv_lhs => rw [autotradingRun]
    rw [h]
    simp

/-- Claim C9 witness: a concrete environment whose account fetch
raises exercises the error-fallback sleep, the continuation into the
next iteration, and the flag-controlled stop. -/
theorem c9_scheduler_error_recovery_witness :
    (autotradingIteration
        ⟨fun _ => .error (.other "down"), fun _ => .ok .null, fun _ => .ok "ok",
         some 45, fun i => decide (i = 0)⟩ 0).getLast? = some (.sleep 60) ∧
    autotradingRun
        ⟨fun _ => .error (.other "down"), fun _ => .ok .null, fun _ => .ok "ok",
         some 45, fun i => decide (i = 0)⟩ 2 0 =
      autotradingIteration
        ⟨fun _ => .error (.other "down"), fun _ => .ok .null, fun _ => .ok "ok",
         some 45, fun i => decide (i = 0)⟩ 0 ++
      autotradingRun
        ⟨fun _ => .error (.other "down"), fun _ => .ok .null, fun _ => .ok "ok",
         some 45, fun i => decide (i = 0)⟩ 1 1 ∧
    autotradingRun
        ⟨fun _ => .error (.other "down"), fun _ => .ok .null, fun _ => .ok "ok",
         some 45, fun i => decide (i = 0)⟩ 1 1 =
      [.log "Auto-trading loop ended" "info"] :=
  ⟨((c9_scheduler_error_recovery
      ⟨fun _ => .error (.other "down"), fun _ => .ok .null, fun _ => .ok "ok",
       some 45, fun i => decide (i = 0)⟩ 0 1).1 (Or.inl rfl)).1,
   (c9_scheduler_error_recovery
      ⟨fun _ => .error (.other "down"), fun _ => .ok .null, fun _ => .ok "ok",
       some 45, fun i => decide (i = 0)⟩ 0 1).2.2.1 rfl,
   (c9_scheduler_error_recovery
      ⟨fun _ => .error (.other "down"), fun _ => .ok .null, fun _ => .ok "ok",
       some 45, fun i => decide (i = 0)⟩ 1 0).2.2.2 rfl⟩

/-- Claim C3, counterexample: on both the Bybit and the Binance
adapter, `close_position` with both `qty` and `percentage` set — and
likewise with neither set — yields no validation error at all: the
positions are fetched over the network first, and a reduce-only close
order is submitted (percentage precedence resp. full close). -/
theorem c3_counterexample :
    bybitClosePosition [⟨"BTCUSDT", 2, "Buy"⟩] "BTCUSDT" (some 1) (some 50) =
      (.ok ⟨"BTCUSDT", "Sell", 1⟩,
       [.getPositions, .createOrder "BTCUSDT" "Sell" 1 true]) ∧
    bybitClosePosition [⟨"BTCUSDT", 2, "Buy"⟩] "BTCUSDT" none none =
      (.ok ⟨"BTCUSDT", "Sell", 2⟩,
       [.getPositions, .createOrder "BTCUSDT" "Sell" 2 true]) ∧
    binanceClosePosition [⟨"BTCUSDT", 2⟩] "BTCUSDT" (some 1) (some 50) =
      (.ok ⟨"BTCUSDT", "SELL", 1⟩,
       [.getPositions, .createOrder "BTCUSDT" "SELL" 1 true]) ∧
    binanceClosePosition [⟨"BTCUSDT", 2⟩] "BTCUSDT" none none =
      (.ok ⟨"BTCUSDT", "SELL", 2⟩,
       [.getPositions, .createOrder "BTCUSDT" "SELL" 2 true]) := by
  refine ⟨?_, rfl, ?_, rfl⟩ <;>
  · simp only [bybitClosePosition, binanceClosePosition, bybitGetPositions,
      binanceGetPositions, pyTruthy]
    norm_num

/-- Claim C3 as amended: `close_position` on the Bybit and Binance
adapters performs no local argument validation.  The positions are
always fetched over the network first (the first network request is
`getPositions`, for every argument combination); the only error either
adapter raises itself is the `ValueError` for a missing position; when
both `qty` and `percentage` are set (percentage truthy), percentage
takes precedence; when neither is set, the full position is closed. -/
theorem c3_close_position_no_validation
    (venue : List BybitVenuePos) (venueB : List BinanceVenuePos) (sym : String)
    (qty? pct? : Option Rat) :
    ((bybitClosePosition venue sym qty? pct?).2.head? = some .getPositions) ∧
    ((binanceClosePosition venueB sym qty? pct?).2.head? = some .getPositions) ∧
    (∀ e, (bybitClosePosition venue sym qty? pct?).1 = .error e →
      e = .valueError ("No position found for " ++ sym)) ∧
    (∀ e, (binanceClosePosition venueB sym qty? pct?).1 = .error e →
      e = .valueError ("No position found for " ++ sym)) ∧
    (∀ q p pos, pyTruthy (some p) = true →
      (bybitGetPositions venue).find? (fun x => x.symbol = sym) = some pos →
      (bybitClosePosition venue sym (some q) (some p)).1 =
        .ok ⟨sym, if pos.side = "long" then "Sell" else "Buy", |pos.qty| * (p / 100)⟩) ∧
    (∀ pos, (bybitGetPositions venue).find? (fun x => x.symbol = sym) = some pos →
      (bybitClosePosition venue sym none none).1 =
        .ok ⟨sym, if pos.side = "long" then "Sell" else "Buy", |pos.qty|⟩) ∧
    (∀ q p pos, pyTruthy (some p) = true →
      (binanceGetPositions venueB).find? (fun x => x.symbol = sym) = some pos →
      (binanceClosePosition venueB sym (some q) (some p)).1 =
        .ok ⟨sym, if pos.side = "long" then "SELL" else "BUY", |pos.qty| * (p / 100)⟩) ∧
    (∀ pos, (binanceGetPositions venueB).find? (fun x => x.symbol = sym) = some pos →
      (binanceClosePosition venueB sym none none).1 =
        .ok ⟨sym, if pos.side = "long" then "SELL" else "BUY", |pos.qty|⟩) := by
  refine ⟨?_, ?_, ?_, ?_, ?_, ?_, ?_, ?_⟩
  · unfold bybitClosePosition
    rcases hf : (bybitGetPositions venue).find? (fun x => x.symbol = sym) with _ | pos <;>
      simp [hf]
  · unfold binanceClosePosition
    rcases hg : (binanceGetPositions venueB).find? (fun x => x.symbol = sym) with _ | pos <;>
      simp [hg]
  · intro e he
    unfold bybitClosePosition at he
    rcases hf : (bybitGetPositions venue).find? (fun x => x.symbol = sym) with _ | pos <;>
      simp [hf] at he
    exact he.symm
  · intro e he
    unfold binanceClosePosition at he
    rcases hg : (binanceGetPositions venueB).find? (fun x => x.symbol = sym) with _ | pos <;>
      simp [hg] at he
    exact he.symm
  · intro q p pos hp hfind
    unfold bybitClosePosition
    simp [hfind, hp]
  · intro pos hfind
    unfold bybitClosePosition
    simp [hfind, pyTruthy]
  · intro q p pos hp hfind
    unfold binanceClosePosition
    simp [hfind, hp]
  · intro pos hfind
    unfold binanceClosePosition
    simp [hfind, pyTruthy]

/-- Claim C3 witness: concrete close_position calls with both
arguments set (percentage precedence) and with neither set (full
close). -/
theorem c3_close_position_no_validation_witness :
    (bybitClosePosition [⟨"X", 3, "Buy"⟩] "X" (some 7) (some 200)).1 =
      .ok ⟨"X", "Sell", |(3 : Rat)| * (200 / 100)⟩ ∧
    (binanceClosePosition [⟨"X", 3⟩] "X" none none).1 =
      .ok ⟨"X", "SELL", |(3 : Rat)|⟩ := by
  have h1 := (c3_close_position_no_validation [⟨"X", 3, "Buy"⟩] [⟨"X", 3⟩] "X"
    (some 7) (some 200)).2.2.2.2.1 7 200 ⟨"X", 3, "long"⟩ (by decide) rfl
  have h2 := (c3_close_position_no_validation [⟨"X", 3, "Buy"⟩] [⟨"X", 3⟩] "X"
    none none).2.2.2.2.2.2.2 ⟨"X", 3, "long"⟩ rfl
  exact ⟨h1, h2⟩

/-- Claim C10, counterexample: `qty` and `percentage` are tested for
Python truthiness, so an explicit zero is treated as absent.  With
`percentage = 0` the claimed close quantity would be
`|position.qty| * 0 / 100 = 0`, and with `qty = 0` it would be
`min 0 |position.qty| = 0`, but both adapters close the full position
(quantity 2) instead. -/
theorem c10_counterexample :
    (bybitClosePosition [⟨"BTCUSDT", 2, "Buy"⟩] "BTCUSDT" none (some 0)).1 =
      .ok ⟨"BTCUSDT", "Sell", 2⟩ ∧
    (2 : Rat) ≠ |(2 : Rat)| * (0 / 100) ∧
    (binanceClosePosition [⟨"BTCUSDT", 2⟩] "BTCUSDT" (some 0) none).1 =
      .ok ⟨"BTCUSDT", "SELL", 2⟩ ∧
    (2 : Rat) ≠ min 0 |(2 : Rat)| := by
  refine ⟨?_, by norm_num, ?_, by norm_num⟩ <;>
  · simp only [bybitClosePosition, binanceClosePosition, bybitGetPositions,
      binanceGetPositions, pyTruthy]
    norm_num

/-- Claim C10 as amended: on both adapters, `close_position` with only
a nonzero explicit `qty` clamps the close quantity to
`min qty |position.qty|` (never exceeding the open position) and
submits it as a reduce-only market order; a nonzero `percentage` takes
precedence and yields `|position.qty| * percentage / 100`; an explicit
zero `qty` or `percentage` is falsy and is treated as if the argument
were absent (full-position close when nothing else is given). -/
theorem c10_close_quantity_clamped
    (venue : List BybitVenuePos) (venueB : List BinanceVenuePos) (sym : String)
    (pos : Pos) (q p : Rat) :
    ((bybitGetPositions venue).find? (fun x => x.symbol = sym) = some pos →
      (q ≠ 0 →
        bybitClosePosition venue sym (some q) none =
          (.ok ⟨sym, if pos.side = "long" then "Sell" else "Buy", min q |pos.qty|⟩,
           [.getPositions,
            .createOrder sym (if pos.side = "long" then "Sell" else "Buy")
              (min q |pos.qty|) true]) ∧
        min q |pos.qty| ≤ |pos.qty|) ∧
      (p ≠ 0 → ∀ qty? : Option Rat,
        (bybitClosePosition venue sym qty? (some p)).1 =
          .ok ⟨sym, if pos.side = "long" then "Sell" else "Buy", |pos.qty| * (p / 100)⟩) ∧
      (bybitClosePosition venue sym (some 0) none).1 =
        .ok ⟨sym, if pos.side = "long" then "Sell" else "Buy", |pos.qty|⟩) ∧
    ((binanceGetPositions venueB).find? (fun x => x.symbol = sym) = some pos →
      (q ≠ 0 →
        binanceClosePosition venueB sym (some q) none =
          (.ok ⟨sym, if pos.side = "long" then "SELL" else "BUY", min q |pos.qty|⟩,
           [.getPositions,
            .createOrder sym (if pos.side = "long" then "SELL" else "BUY")
              (min q |pos.qty|) true]) ∧
        min q |pos.qty| ≤ |pos.qty|) ∧
      (p ≠ 0 → ∀ qty? : Option Rat,
        (binanceClosePosition venueB sym qty? (some p)).1 =
          .ok ⟨sym, if pos.side = "long" then "SELL" else "BUY", |pos.qty| * (p / 100)⟩) ∧
      (binanceClosePosition venueB sym (some 0) none).1 =
        .ok ⟨sym, if pos.side = "long" then "SELL" else "BUY", |pos.qty|⟩) := by
  constructor
  · intro hfind
    refine ⟨fun hq => ⟨?_, min_le_right _ _⟩, fun hp qty? => ?_, ?_⟩
    · unfold bybitClosePosition
      simp [hfind, pyTruthy, hq]
    · unfold bybitClosePosition
      simp [hfind, pyTruthy, hp]
    · unfold bybitClosePosition
      simp [hfind, pyTruthy]
  · intro hfind
    refine ⟨fun hq => ⟨?_, min_le_right _ _⟩, fun hp qty? => ?_, ?_⟩
    · unfold binanceClosePosition
      simp [hfind, pyTruthy, hq]
    · unfold binanceClosePosition
      simp [hfind, pyTruthy, hp]
    · unfold binanceClosePosition
      simp [hfind, pyTruthy]

/-- Claim C10 witness: a concrete oversized qty-only close is clamped
to the position size, and a concrete 50% close yields half the
position. -/
theorem c10_close_quantity_clamped_witness :
    bybitClosePosition [⟨"X", 2, "Buy"⟩] "X" (some 5) none =
      (.ok ⟨"X", "Sell", min 5 |(2 : Rat)|⟩,
       [.getPositions, .createOrder "X" "Sell" (min 5 |(2 : Rat)|) true]) ∧
    (binanceClosePosition [⟨"X", 2⟩] "X" none (some 50)).1 =
      .ok ⟨"X", "SELL", |(2 : Rat)| * (50 / 100)⟩ := by
  have h1 := (((c10_close_quantity_clamped [⟨"X", 2, "Buy"⟩] [⟨"X", 2⟩] "X"
    ⟨"X", 2, "long"⟩ 5 50).1 rfl).1 (by norm_num)).1
  have h2 := ((c10_close_quantity_clamped [⟨"X", 2, "Buy"⟩] [⟨"X", 2⟩] "X"
    ⟨"X", 2, "long"⟩ 5 50).2 rfl).2.1 (by norm_num) none
  exact ⟨h1, h2⟩

/-- `d[k] = v` on a dict without the key appends the pair. -/
theorem dictSet_append (d : List (String × String)) (k v : String)
    (h : ∀ kv ∈ d, kv.1 ≠ k) : dictSet d k v = d ++ [(k, v)] := by
  unfold dictSet
  have hfind : d.find? (fun kv => kv.1 = k) = none :=
    List.find?_eq_none.mpr (by intro x hx; simpa using h x hx)
  rw [hfind]
  rfl

/-- Claim C5, counterexample: Binance serializes the signed parameters
in dict insertion order, not sorted by key.  For the parameter set
`{symbol: BTCUSDT}` at timestamp 5, the string fed to HMAC-SHA256
differs from the sorted serialization the claim asserts. -/
theorem c5_counterexample :
    binanceSignMessage [("symbol", "BTCUSDT")] 5 =
      "symbol=BTCUSDT&timestamp=5&recvWindow=5000" ∧
    serializeParams (sortParams (binanceSignedParams [("symbol", "BTCUSDT")] 5)) =
      "recvWindow=5000&symbol=BTCUSDT&timestamp=5" ∧
    binanceSignMessage [("symbol", "BTCUSDT")] 5 ≠
      serializeParams (sortParams (binanceSignedParams [("symbol", "BTCUSDT")] 5)) := by
  refine ⟨rfl, rfl, by decide⟩

/-- Claim C5 as amended: both signature-based adapters key the
HMAC-SHA256 with the account secret and include a timestamp and a
receive-window parameter (5000) among the signed parameters, but only
Bybit serializes the parameters sorted by key; Binance joins the
`key=value` pairs in dict insertion order with `timestamp` and
`recvWindow` appended last. -/
theorem c5_request_signing (hmac : String → String → String) (secret api_key : String)
    (params : List (String × String)) (ts : Int)
    (hfresh : ∀ kv ∈ params, kv.1 ≠ "api_key" ∧ kv.1 ≠ "timestamp" ∧
      kv.1 ≠ "recv_window" ∧ kv.1 ≠ "sign" ∧ kv.1 ≠ "recvWindow" ∧ kv.1 ≠ "signature") :
    bybitFinalParams hmac secret params api_key ts =
      params ++ [("api_key", api_key), ("timestamp", toString ts), ("recv_window", "5000"),
        ("sign", hmac secret (serializeParams (sortParams
          (params ++ [("api_key", api_key), ("timestamp", toString ts),
            ("recv_window", "5000")]))))] ∧
    ("timestamp", toString ts) ∈ bybitSignedParams params api_key ts ∧
    ("recv_window", "5000") ∈ bybitSignedParams params api_key ts ∧
    binanceFinalParams hmac secret params ts =
      params ++ [("timestamp", toString ts), ("recvWindow", "5000"),
        ("signature", hmac secret (serializeParams
          (params ++ [("timestamp", toString ts), ("recvWindow", "5000")])))] ∧
    ("timestamp", toString ts) ∈ binanceSignedParams params ts ∧
    ("recvWindow", "5000") ∈ binanceSignedParams params ts := by
  have ha : dictSet params "api_key" api_key = params ++ [("api_key", api_key)] :=
    dictSet_append _ _ _ (fun kv hk => (hfresh kv hk).1)
  have hb : dictSet (params ++ [("api_key", api_key)]) "timestamp" (toString ts) =
      params ++ [("api_key", api_key), ("timestamp", toString ts)] := by
    rw [dictSet_append]
    · simp
    · intro kv hk
      rcases List.mem_append.mp hk with hk | hk
      · exact (hfresh kv hk).2.1
      · simp at hk
        simp [hk]
  have hc : dictSet (params ++ [("api_key", api_key), ("timestamp", toString ts)])
      "recv_window" "5000" =
      params ++ [("api_key", api_key), ("timestamp", toString ts), ("recv_window", "5000")] := by
    rw [dictSet_append]
    · simp
    · intro kv hk
      rcases List.mem_append.mp hk with hk | hk
      · exact (hfresh kv hk).2.2.1
      · simp at hk
        rcases hk with hk | hk <;> simp [hk]
  have h1 : bybitSignedParams params api_key ts =
      params ++ [("api_key", api_key), ("timestamp", toString ts), ("recv_window", "5000")] := by
    unfold bybitSignedParams
    rw [ha, hb, hc]
  have hd : dictSet params "timestamp" (toString ts) = params ++ [("timestamp", toString ts)] :=
    dictSet_append _ _ _ (fun kv hk => (hfresh kv hk).2.1)
  have he : dictSet (params ++ [("timestamp", toString ts)]) "recvWindow" "5000" =
      params ++ [("timestamp", toString ts), ("recvWindow", "5000")] := by
    rw [dictSet_append]
    · simp
    · intro kv hk
      rcases List.mem_append.mp hk with hk | hk
      · exact (hfresh kv hk).2.2.2.2.1
      · simp at hk
        simp [hk]
  have h2 : binanceSignedParams params ts =
      params ++ [("timestamp", toString ts), ("recvWindow", "5000")] := by
    unfold binanceSignedParams
    rw [hd, he]
  refine ⟨?_, ?_, ?_, ?_, ?_, ?_⟩
  · unfold bybitFinalParams bybitSignMessage
    rw [h1, dictSet_append]
    · simp
    · intro kv hk
      rcases List.mem_append.mp hk with hk | hk
      · exact (hfresh kv hk).2.2.2.1
      · simp at hk
        rcases hk with hk | hk | hk <;> simp [hk]
  · rw [h1]; simp
  · rw [h1]; simp
  · unfold binanceFinalParams binanceSignMessage
    rw [h2, dictSet_append]
    · simp
    · intro kv hk
      rcases List.mem_append.mp hk with hk | hk
      · exact (hfresh kv hk).2.2.2.2.2
      · simp at hk
        rcases hk with hk | hk <;> simp [hk]
  · rw [h2]; simp
  · rw [h2]; simp

/-- Claim C5 witness: concrete signed parameter sets for both venues,
with a transparent stand-in for the HMAC function. -/
theorem c5_request_signing_witness :
    bybitFinalParams (fun secret m => secret ++ "|" ++ m) "sec" [("symbol", "BTCUSDT")] "key" 7 =
      [("symbol", "BTCUSDT"), ("api_key", "key"), ("timestamp", "7"), ("recv_window", "5000"),
       ("sign", "sec" ++ "|" ++ serializeParams (sortParams
         ([("symbol", "BTCUSDT")] ++ [("api_key", "key"), ("timestamp", "7"),
           ("recv_window", "5000")])))] ∧
    ("timestamp", "7") ∈ binanceSignedParams [("symbol", "BTCUSDT")] 7 := by
  have h := c5_request_signing (fun secret m => secret ++ "|" ++ m) "sec" "key"
    [("symbol", "BTCUSDT")] 7 (by decide)
  exact ⟨h.1, h.2.2.2.2.1⟩

/-- `Char.ofNat` of a valid code point decodes back to it. -/
theorem char_toNat_ofNat_valid (n : Nat) (h : n.isValidChar) : (Char.ofNat n).toNat = n := by
  simp only [Char.ofNat, h, dif_pos, Char.ofNatAux, Char.toNat, UInt32.toNat]
  rfl

/-- Python `str.upper` is idempotent on characters. -/
theorem toUpper_idem (c : Char) : c.toUpper.toUpper = c.toUpper := by
  unfold Char.toUpper
  by_cases h : c.toNat ≥ 97 ∧ c.toNat ≤ 122
  · simp only [h, and_self, if_true]
    have hv : (c.toNat - 32).isValidChar := by
      left
      omega
    have heq := char_toNat_ofNat_valid (c.toNat - 32) hv
    rw [if_neg]
    rw [heq]
    omega
  · simp only [h, if_false]

/-- Uppercasing cannot produce a character outside the uppercase
letter range, such as `/` or `-`. -/
theorem toUpper_ne (c d : Char) (hd : d.toNat < 65 ∨ 90 < d.toNat) (h : c ≠ d) :
    c.toUpper ≠ d := by
  unfold Char.toUpper
  by_cases hc : c.toNat ≥ 97 ∧ c.toNat ≤ 122
  · simp only [hc, and_self, if_true]
    intro hEq
    have hv : (c.toNat - 32).isValidChar := by
      left
      omega
    have heq := char_toNat_ofNat_valid (c.toNat - 32) hv
    have h2 : (Char.ofNat (c.toNat - 32)).toNat = d.toNat := by rw [hEq]
    rw [heq] at h2
    omega
  · simp only [hc, if_false]
    exact h

/-- Removing a character already absent is the identity. -/
theorem stripChar_eq_self (c : Char) (l : List Char) (h : c ∉ l) : stripChar c l = l := by
  unfold stripChar
  rw [List.filter_eq_self]
  intro a ha
  simp only [ne_eq, decide_eq_true_eq]
  intro hEq
  exact h (hEq ▸ ha)

/-- The removed character is absent from the result. -/
theorem not_mem_stripChar (c : Char) (l : List Char) : c ∉ stripChar c l := by
  unfold stripChar
  intro h
  simp at h

/-- Removal only removes. -/
theorem mem_of_mem_stripChar {x : Char} {c : Char} {l : List Char}
    (h : x ∈ stripChar c l) : x ∈ l := by
  unfold stripChar at h
  exact (List.mem_filter.mp h).1

/-- A list ending in `USDT` reports so. -/
theorem usdt_isSuffixOf_append (l : List Char) : usdtChars.isSuffixOf (l ++ usdtChars) = true := by
  rw [List.isSuffixOf_iff_suffix]
  exact List.suffix_append l usdtChars

/-- Under the crypto asset classes, the Bybit normalization has one
of three shapes depending on the suffix tests of the stripped
symbol. -/
theorem bybitNormalize_shape (s : List Char) (a : String)
    (ha : a = "crypto" ∨ a = "crypto_futures") :
    bybitNormalizeSymbol s a =
      (let s1 := stripChar '-' (stripChar '/' s)
       if usdtChars.isSuffixOf s1 then s1
       else if usdChars.isSuffixOf s1 then s1.take (s1.length - 3) ++ usdtChars
       else s1 ++ usdtChars) := by
  unfold bybitNormalizeSymbol
  rw [if_pos ha]
  by_cases c1 : usdtChars.isSuffixOf (stripChar '-' (stripChar '/' s)) = true
  · simp [c1]
  · rw [Bool.not_eq_true] at c1
    by_cases c2 : usdChars.isSuffixOf (stripChar '-' (stripChar '/' s)) = true
    · simp [c1, c2]
    · rw [Bool.not_eq_true] at c2
      simp [c1, c2, usdt_isSuffixOf_append]

/-- Invariant of the Bybit crypto normalization: the result contains
no slash or dash and ends in `USDT`. -/
theorem bybitNormalize_inv (s : List Char) (a : String)
    (ha : a = "crypto" ∨ a = "crypto_futures") :
    '/' ∉ bybitNormalizeSymbol s a ∧ '-' ∉ bybitNormalizeSymbol s a ∧
    usdtChars.isSuffixOf (bybitNormalizeSymbol s a) = true := by
  have hslash : '/' ∉ stripChar '-' (stripChar '/' s) :=
    fun h => not_mem_stripChar '/' s (mem_of_mem_stripChar h)
  have hdash : '-' ∉ stripChar '-' (stripChar '/' s) := not_mem_stripChar '-' _
  rw [bybitNormalize_shape s a ha]
  by_cases c1 : usdtChars.isSuffixOf (stripChar '-' (stripChar '/' s)) = true
  · simp only [c1, if_true]
    exact ⟨hslash, hdash, trivial⟩
  · rw [Bool.not_eq_true] at c1
    by_cases c2 : usdChars.isSuffixOf (stripChar '-' (stripChar '/' s)) = true
    · simp only [c1, c2, Bool.false_eq_true, if_false, if_true]
      refine ⟨?_, ?_, usdt_isSuffixOf_append _⟩
      · intro h
        rcases List.mem_append.mp h with h | h
        · exact hslash (List.take_subset _ _ h)
        · simp [usdtChars] at h
      · intro h
        rcases List.mem_append.mp h with h | h
        · exact hdash (List.take_subset _ _ h)
        · simp [usdtChars] at h
    · rw [Bool.not_eq_true] at c2
      simp only [c1, c2, Bool.false_eq_true, if_false]
      refine ⟨?_, ?_, usdt_isSuffixOf_append _⟩
      · intro h
        rcases List.mem_append.mp h with h | h
        · exact hslash h
        · simp [usdtChars] at h
      · intro h
        rcases List.mem_append.mp h with h | h
        · exact hdash h
        · simp [usdtChars] at h

/-- The Bybit normalization is idempotent. -/
theorem bybitNormalize_idem (s : List Char) (a : String) :
    bybitNormalizeSymbol (bybitNormalizeSymbol s a) a = bybitNormalizeSymbol s a := by
  by_cases ha : a = "crypto" ∨ a = "crypto_futures"
  · obtain ⟨h1, h2, h3⟩ := bybitNormalize_inv s a ha
    set r := bybitNormalizeSymbol s a with hr
    rw [bybitNormalize_shape r a ha, stripChar_eq_self '/' r h1, stripChar_eq_self '-' r h2]
    simp [h3]
  · unfold bybitNormalizeSymbol
    rw [if_neg ha, if_neg ha]

/-- Upper-casing the `USDT` suffix is the identity. -/
theorem map_toUpper_usdt : usdtChars.map Char.toUpper = usdtChars := by decide

/-- Upper-casing an already upper-cased list is the identity. -/
theorem map_toUpper_map (l : List Char) :
    (l.map Char.toUpper).map Char.toUpper = l.map Char.toUpper := by
  rw [List.map_map]
  exact List.map_congr_left (fun c _ => toUpper_idem c)

/-- Upper-casing cannot introduce a character outside the uppercase
letter range. -/
theorem not_mem_map_toUpper (l : List Char) (d : Char) (hd : d.toNat < 65 ∨ 90 < d.toNat)
    (h : d ∉ l) : d ∉ l.map Char.toUpper := by
  intro hm
  rcases List.mem_map.mp hm with ⟨c, hc, hEq⟩
  exact toUpper_ne c d hd (fun hcd => h (hcd ▸ hc)) hEq

/-- Under the crypto asset classes, the Binance normalization has one
of three shapes depending on the suffix tests of the stripped,
upper-cased symbol. -/
theorem binanceNormalize_shape (s : List Char) (a : String)
    (ha : a = "crypto" ∨ a = "crypto_futures") :
    binanceNormalizeSymbol s a =
      (let u := (stripChar '-' (stripChar '/' s)).map Char.toUpper
       if usdtChars.isSuffixOf u then u
       else if usdChars.isSuffixOf u then u.take (u.length - 3) ++ usdtChars
       else u ++ usdtChars) := by
  unfold binanceNormalizeSymbol
  rw [if_pos ha]
  by_cases c1 : usdtChars.isSuffixOf ((stripChar '-' (stripChar '/' s)).map Char.toUpper) = true
  · simp [c1]
  · rw [Bool.not_eq_true] at c1
    by_cases c2 : usdChars.isSuffixOf ((stripChar '-' (stripChar '/' s)).map Char.toUpper) = true
    · simp [c1, c2]
    · rw [Bool.not_eq_true] at c2
      simp [c1, c2]

/-- Invariant of the Binance crypto normalization: the result contains
no slash or dash, is fixed under upper-casing, and ends in `USDT`. -/
theorem binanceNormalize_inv (s : List Char) (a : String)
    (ha : a = "crypto" ∨ a = "crypto_futures") :
    '/' ∉ binanceNormalizeSymbol s a ∧ '-' ∉ binanceNormalizeSymbol s a ∧
    (binanceNormalizeSymbol s a).map Char.toUpper = binanceNormalizeSymbol s a ∧
    usdtChars.isSuffixOf (binanceNormalizeSymbol s a) = true := by
  have hslash : '/' ∉ (stripChar '-' (stripChar '/' s)).map Char.toUpper :=
    not_mem_map_toUpper _ '/' (by left; decide)
      (fun h => not_mem_stripChar '/' s (mem_of_mem_stripChar h))
  have hdash : '-' ∉ (stripChar '-' (stripChar '/' s)).map Char.toUpper :=
    not_mem_map_toUpper _ '-' (by left; decide) (not_mem_stripChar '-' _)
  have hupper := map_toUpper_map (stripChar '-' (stripChar '/' s))
  rw [binanceNormalize_shape s a ha]
  by_cases c1 : usdtChars.isSuffixOf ((stripChar '-' (stripChar '/' s)).map Char.toUpper) = true
  · simp only [c1, if_true]
    exact ⟨hslash, hdash, hupper, trivial⟩
  · rw [Bool.not_eq_true] at c1
    by_cases c2 : usdChars.isSuffixOf ((stripChar '-' (stripChar '/' s)).map Char.toUpper) = true
    · simp only [c1, c2, Bool.false_eq_true, if_false, if_true]
      refine ⟨?_, ?_, ?_, usdt_isSuffixOf_append _⟩
      · intro h
        rcases List.mem_append.mp h with h | h
        · exact hslash (List.take_subset _ _ h)
        · simp [usdtChars] at h
      · intro h
        rcases List.mem_append.mp h with h | h
        · exact hdash (List.take_subset _ _ h)
        · simp [usdtChars] at h
      · rw [List.map_append, map_toUpper_usdt, List.map_take, hupper]
    · rw [Bool.not_eq_true] at c2
      simp only [c1, c2, Bool.false_eq_true, if_false]
      refine ⟨?_, ?_, ?_, usdt_isSuffixOf_append _⟩
      · intro h
        rcases List.mem_append.mp h with h | h
        · exact hslash h
        · simp [usdtChars] at h
      · intro h
        rcases List.mem_append.mp h with h | h
        · exact hdash h
        · simp [usdtChars] at h
      · rw [List.map_append, map_toUpper_usdt, hupper]

/-- The Binance normalization is idempotent. -/
theorem binanceNormalize_idem (s : List Char) (a : String) :
    binanceNormalizeSymbol (binanceNormalizeSymbol s a) a = binanceNormalizeSymbol s a := by
  by_cases ha : a = "crypto" ∨ a = "crypto_futures"
  · obtain ⟨h1, h2, h3, h4⟩ := binanceNormalize_inv s a ha
    set r := binanceNormalizeSymbol s a with hr
    rw [binanceNormalize_shape r a ha, stripChar_eq_self '/' r h1,
      stripChar_eq_self '-' r h2, h3]
    simp [h4]
  · unfold binanceNormalizeSymbol
    rw [if_neg ha, if_neg ha]

/-- The Alpaca normalization is idempotent: every result is a fixed
point (it either contains a slash or triggers no rewrite). -/
theorem alpacaNormalize_idem (s : List Char) (a : String) :
    alpacaNormalizeSymbol (alpacaNormalizeSymbol s a) a = alpacaNormalizeSymbol s a := by
  by_cases ha : a = "crypto"
  · by_cases hs : '/' ∈ s
    · unfold alpacaNormalizeSymbol
      simp [ha, hs]
    · by_cases h1 : usdChars.isSuffixOf s = true
      · unfold alpacaNormalizeSymbol
        simp [ha, hs, h1]
      · by_cases h2 : usdtChars.isSuffixOf s = true
        · unfold alpacaNormalizeSymbol
          simp [ha, hs, h1, h2]
        · unfold alpacaNormalizeSymbol
          simp [ha, hs, h1, h2]
  · unfold alpacaNormalizeSymbol
    rw [if_neg ha, if_neg ha]

/-- Claim C4: for every adapter (Alpaca, Bybit, Binance), every input
symbol string and every asset-class tag, symbol normalization is
idempotent: `normalize_symbol (normalize_symbol s a) a =
normalize_symbol s a`. -/
theorem c4_normalize_idempotent (s : List Char) (a : String) :
    bybitNormalizeSymbol (bybitNormalizeSymbol s a) a = bybitNormalizeSymbol s a ∧
    binanceNormalizeSymbol (binanceNormalizeSymbol s a) a = binanceNormalizeSymbol s a ∧
    alpacaNormalizeSymbol (alpacaNormalizeSymbol s a) a = alpacaNormalizeSymbol s a :=
  ⟨bybitNormalize_idem s a, binanceNormalize_idem s a, alpacaNormalize_idem s a⟩

/-- A tool name outside the dispatch chain falls through to the
`Unknown tool` result. -/
theorem execute_tool_inner_unknown (env : Env) (b : Broker) (tool_name : String)
    (arguments : Args) (h : tool_name ∉ dispatchToolNames) :
    execute_tool_inner env b tool_name arguments =
      (.ok (errObj ("Unknown tool: " ++ tool_name)), []) := by
  have h1 : tool_name ≠ "get_account" := fun hEq => h (by rw [hEq]; decide)
  have h2 : tool_name ≠ "get_all_positions" := fun hEq => h (by rw [hEq]; decide)
  have h3 : tool_name ≠ "close_position" := fun hEq => h (by rw [hEq]; decide)
  have h4 : tool_name ≠ "get_crypto_latest_bar" := fun hEq => h (by rw [hEq]; decide)
  have h5 : tool_name ≠ "place_crypto_order" := fun hEq => h (by rw [hEq]; decide)
  have h6 : tool_name ≠ "place_stock_order" := fun hEq => h (by rw [hEq]; decide)
  have h7 : tool_name ≠ "get_stock_quote" := fun hEq => h (by rw [hEq]; decide)
  have h8 : tool_name ≠ "get_stock_bars" := fun hEq => h (by rw [hEq]; decide)
  have h9 : tool_name ≠ "get_technical_indicators" := fun hEq => h (by rw [hEq]; decide)
  have h10 : tool_name ≠ "get_orders" := fun hEq => h (by rw [hEq]; decide)
  have h11 : tool_name ≠ "cancel_order" := fun hEq => h (by rw [hEq]; decide)
  have h12 : tool_name ≠ "cancel_all_orders" := fun hEq => h (by rw [hEq]; decide)
  have h13 : tool_name ≠ "get_market_clock" := fun hEq => h (by rw [hEq]; decide)
  have h14 : tool_name ≠ "read_trading_memory" := fun hEq => h (by rw [hEq]; decide)
  have h15 : tool_name ≠ "write_trading_memory" := fun hEq => h (by rw [hEq]; decide)
  have h16 : tool_name ≠ "append_trading_memory" := fun hEq => h (by rw [hEq]; decide)
  have h17 : tool_name ≠ "clear_trading_memory" := fun hEq => h (by rw [hEq]; decide)
  unfold execute_tool_inner
  rw [if_neg h1, if_neg h2, if_neg h3, if_neg h4, if_neg h5, if_neg h6, if_neg h7, if_neg h8, if_neg h9, if_neg h10, if_neg h11, if_neg h12, if_neg h13, if_neg h14, if_neg h15, if_neg h16, if_neg h17]

/-- Claim C1: for every tool name and argument map the Tool Executor
returns a result value and never raises.  With no broker configured it
returns the fixed error result; with a broker, every exception the
dispatch body raises is caught and converted — `NotImplementedError`
into the distinguishable "doesn't support this feature" error, every
other exception into `{"error": str(e)}` — every normal value is
passed through, and an unrecognized tool name yields an
`Unknown tool` error result rather than an exception. -/
theorem c1_executor_never_raises (env : Env) (tool_name : String) (arguments : Args) :
    (env.broker? = none →
      execute_tool env tool_name arguments =
        (errObj "Broker not initialized. Please configure broker credentials in Settings.",
         [])) ∧
    (∀ b, env.broker? = some b →
      (∀ e t, execute_tool_inner env b tool_name arguments = (.error e, t) →
        execute_tool env tool_name arguments = (errObj (excToErrorMsg b e), t)) ∧
      (∀ m t, execute_tool_inner env b tool_name arguments = (.error (.notImplemented m), t) →
        execute_tool env tool_name arguments =
          (errObj (b.name ++ " doesn't support this feature: " ++ m), t)) ∧
      (∀ v t, execute_tool_inner env b tool_name arguments = (.ok v, t) →
        execute_tool env tool_name arguments = (v, t)) ∧
      (tool_name ∉ dispatchToolNames →
        execute_tool env tool_name arguments =
          (errObj ("Unknown tool: " ++ tool_name), []))) := by
  constructor
  · intro h
    unfold execute_tool
    rw [h]
  · intro b hb
    refine ⟨?_, ?_, ?_, ?_⟩
    · intro e t hET
      unfold execute_tool
      rw [hb]
      dsimp only
      rw [hET]
    · intro m t hET
      unfold execute_tool
      rw [hb]
      dsimp only
      rw [hET]
      rfl
    · intro v t hET
      unfold execute_tool
      rw [hb]
      dsimp only
      rw [hET]
    · intro hn
      unfold execute_tool
      rw [hb]
      dsimp only
      rw [execute_tool_inner_unknown env b tool_name arguments hn]

/-- Claim C1 witness: a broker whose every venue method raises a
generic exception, a `NotImplementedError` path, an unknown tool name,
and the uninitialized-broker guard, all produce structured error
results. -/
theorem c1_executor_never_raises_witness :
    execute_tool
      ⟨some (mkBroker "Bybit" true bybitMaxLeverage (.error (.other "boom"))), 0,
       fun _ _ _ => .ok .null, .ok none, fun _ => .ok (), fun _ => .ok (), .ok ()⟩
      "get_account" [] = (errObj "boom", [.get_account]) ∧
    execute_tool
      ⟨some (mkBroker "Bybit" true bybitMaxLeverage
        (.error (.notImplemented "Bybit does not support stock trading"))), 0,
       fun _ _ _ => .ok .null, .ok none, fun _ => .ok (), fun _ => .ok (), .ok ()⟩
      "get_stock_quote" [("symbol", .str "AAPL")] =
      (errObj "Bybit doesn't support this feature: Bybit does not support stock trading",
       [.get_stock_quote (.str "AAPL")]) ∧
    execute_tool
      ⟨some (mkBroker "Bybit" true bybitMaxLeverage (.error (.other "boom"))), 0,
       fun _ _ _ => .ok .null, .ok none, fun _ => .ok (), fun _ => .ok (), .ok ()⟩
      "frobnicate" [] = (errObj ("Unknown tool: " ++ "frobnicate"), []) ∧
    execute_tool
      ⟨none, 0, fun _ _ _ => .ok .null, .ok none, fun _ => .ok (), fun _ => .ok (), .ok ()⟩
      "get_account" [] =
      (errObj "Broker not initialized. Please configure broker credentials in Settings.",
       []) := by
  refine ⟨?_, ?_, ?_, ?_⟩
  · exact ((c1_executor_never_raises _ "get_account" []).2
      (mkBroker "Bybit" true bybitMaxLeverage (.error (.other "boom"))) rfl).1
      (.other "boom") [.get_account] rfl
  · exact ((c1_executor_never_raises _ "get_stock_quote" [("symbol", .str "AAPL")]).2
      (mkBroker "Bybit" true bybitMaxLeverage
        (.error (.notImplemented "Bybit does not support stock trading"))) rfl).2.1
      "Bybit does not support stock trading" [.get_stock_quote (.str "AAPL")] rfl
  · exact ((c1_executor_never_raises _ "frobnicate" []).2
      (mkBroker "Bybit" true bybitMaxLeverage (.error (.other "boom"))) rfl).2.2.2
      (by decide)
  · exact (c1_executor_never_raises _ "get_account" []).1 rfl

/-- The dispatch of the `place_crypto_order` tool: leverage extraction
and capability/ceiling checks happen before the adapter is touched. -/
theorem execute_tool_inner_place (env : Env) (b : Broker) (args : Args) :
    execute_tool_inner env b "place_crypto_order" args =
      (let leverage := argGetD args "leverage" (.num 1)
       match pyGtNum leverage 1 with
       | .error e => (.error e, [])
       | .ok gt1 =>
         if gt1 && !b.supports_crypto_leverage then
           (.ok (errObj (b.name ++ " doesn't support leverage trading. " ++
             "Switch to Bybit or Binance for leverage trading.")), [])
         else
           let max_lev := b.get_max_leverage "crypto"
           match pyGtNum leverage (max_lev : Rat) with
           | .error e => (.error e, [])
           | .ok gtMax =>
             if gtMax then
               (.ok (errObj (b.name ++ " max leverage is " ++ toString max_lev ++ "x, " ++
                 "you requested " ++ pyStr leverage ++ "x")), [])
             else
               match argIdx args "symbol" with
               | .error e => (.error e, [])
               | .ok sym =>
                 match argIdx args "side" with
                 | .error e => (.error e, [])
                 | .ok side =>
                   (b.place_crypto_order sym side (argGetD args "qty" .null)
                     (argGetD args "notional" .null) leverage,
                    [.place_crypto_order sym side (argGetD args "qty" .null)
                     (argGetD args "notional" .null) leverage])) := by
  unfold execute_tool_inner
  rw [if_neg (by decide), if_neg (by decide), if_neg (by decide), if_neg (by decide),
    if_pos rfl]

/-- Naive substring membership on character lists (Python `in`). -/
def listStartsWith : List Char → List Char → Bool
  | [], _ => true
  | _ :: _, [] => false
  | p :: ps, c :: cs => p = c && listStartsWith ps cs

/-- Naive substring search on character lists (Python `in`). -/
def strContains : List Char → List Char → Bool
  | hay, pat =>
    match hay with
    | [] => pat.isEmpty
    | _ :: t => listStartsWith pat hay || strContains t pat

/-- Claim C2 as amended: for a `place_crypto_order` tool call with a
numeric requested leverage `L` against a broker with crypto ceiling
`C = get_max_leverage('crypto')`: if `L > C` the Executor returns an
error result without invoking any adapter method (empty dispatch
trace) — the error names the maximum whenever the broker supports
crypto leverage (and also when it does not but `L ≤ 1`), while a
leverage-incapable broker asked for `L > 1` gets the "doesn't support
leverage trading" error instead, which does not name the ceiling; if
`L ≤ C` (and the broker supports leverage whenever `L > 1`), the
Executor dispatches exactly one `place_crypto_order` adapter call with
`L` forwarded unchanged, and passes a successful adapter result
through. -/
theorem c2_leverage_gate (env : Env) (b : Broker) (args : Args) (L : Rat)
    (hb : env.broker? = some b)
    (hlv : argGetD args "leverage" (.num 1) = .num L) :
    (L > (b.get_max_leverage "crypto" : Rat) →
      (b.supports_crypto_leverage = true →
        execute_tool env "place_crypto_order" args =
          (errObj (b.name ++ " max leverage is " ++ toString (b.get_max_leverage "crypto") ++
            "x, " ++ "you requested " ++ pyStr (.num L) ++ "x"), [])) ∧
      (b.supports_crypto_leverage = false → 1 < L →
        execute_tool env "place_crypto_order" args =
          (errObj (b.name ++ " doesn't support leverage trading. " ++
            "Switch to Bybit or Binance for leverage trading."), [])) ∧
      (b.supports_crypto_leverage = false → ¬ 1 < L →
        execute_tool env "place_crypto_order" args =
          (errObj (b.name ++ " max leverage is " ++ toString (b.get_max_leverage "crypto") ++
            "x, " ++ "you requested " ++ pyStr (.num L) ++ "x"), []))) ∧
    (L ≤ (b.get_max_leverage "crypto" : Rat) → (1 < L → b.supports_crypto_leverage = true) →
      ∀ sv dv, argGet args "symbol" = some sv → argGet args "side" = some dv →
        (execute_tool env "place_crypto_order" args).2 =
          [.place_crypto_order sv dv (argGetD args "qty" .null)
            (argGetD args "notional" .null) (.num L)] ∧
        ∀ v, b.place_crypto_order sv dv (argGetD args "qty" .null)
            (argGetD args "notional" .null) (.num L) = .ok v →
          (execute_tool env "place_crypto_order" args).1 = v) := by
  have hshape := execute_tool_inner_place env b args
  rw [hlv] at hshape
  dsimp only [pyGtNum] at hshape
  have hwrap : execute_tool env "place_crypto_order" args =
      (match execute_tool_inner env b "place_crypto_order" args with
       | (.ok v, t) => (v, t)
       | (.error e, t) => (errObj (excToErrorMsg b e), t)) := by
    unfold execute_tool
    rw [hb]
  constructor
  · intro hL
    have hc : decide ((b.get_max_leverage "crypto" : Rat) < L) = true :=
      decide_eq_true_eq.mpr hL
    refine ⟨?_, ?_, ?_⟩
    · intro hs
      rw [hs, hc] at hshape
      simp only [Bool.not_true, Bool.and_false, Bool.false_eq_true, if_false, if_true] at hshape
      rw [hwrap, hshape]
    · intro hs hgt1
      rw [hs, decide_eq_true_eq.mpr hgt1] at hshape
      simp only [Bool.not_false, Bool.and_true, if_true] at hshape
      rw [hwrap, hshape]
    · intro hs hngt1
      rw [hs, decide_eq_false hngt1, hc] at hshape
      simp only [Bool.not_false, Bool.false_and, Bool.false_eq_true, if_false, if_true] at hshape
      rw [hwrap, hshape]
  · intro hL hsup sv dv hsym hside
    have hcf : decide ((b.get_max_leverage "crypto" : Rat) < L) = false :=
      decide_eq_false (not_lt.mpr hL)
    have hsymIdx : argIdx args "symbol" = .ok sv := by
      unfold argIdx
      rw [hsym]
    have hsideIdx : argIdx args "side" = .ok dv := by
      unfold argIdx
      rw [hside]
    have hfirst : (decide (1 < L) && !b.supports_crypto_leverage) = false := by
      by_cases h1 : 1 < L
      · rw [hsup h1]
        simp
      · rw [decide_eq_false h1]
        simp
    rw [hfirst, hcf, hsymIdx, hsideIdx] at hshape
    simp only [Bool.false_eq_true, if_false] at hshape
    rcases hres : b.place_crypto_order sv dv (argGetD args "qty" .null)
        (argGetD args "notional" .null) (.num L) with e | v
    · rw [hres] at hshape
      rw [hwrap, hshape]
      refine ⟨rfl, ?_⟩
      intro v hv
      exact absurd hv (by simp)
    · rw [hres] at hshape
      rw [hwrap, hshape]
      refine ⟨rfl, ?_⟩
      intro v2 hv
      simpa using hv

/-- Claim C2, counterexample to "the error names the maximum": on the
Alpaca adapter (no crypto leverage, ceiling 1) a requested leverage of
10 exceeds the ceiling, yet the Executor's error is the capability
message, which contains neither the substring "max leverage" nor the
ceiling value "1"; the adapter is still never invoked (empty trace). -/
theorem c2_counterexample :
    (10 : Rat) > (alpacaMaxLeverage "crypto" : Rat) ∧
    execute_tool
      ⟨some (mkBroker "Alpaca" false alpacaMaxLeverage (.ok .null)), 0,
       fun _ _ _ => .ok .null, .ok none, fun _ => .ok (), fun _ => .ok (), .ok ()⟩
      "place_crypto_order"
      [("symbol", .str "BTC/USD"), ("side", .str "buy"), ("leverage", .num 10)] =
      (errObj ("Alpaca doesn't support leverage trading. " ++
        "Switch to Bybit or Binance for leverage trading."), []) ∧
    strContains ("Alpaca doesn't support leverage trading. " ++
      "Switch to Bybit or Binance for leverage trading.").data "max leverage".data = false ∧
    strContains ("Alpaca doesn't support leverage trading. " ++
      "Switch to Bybit or Binance for leverage trading.").data
      (toString (alpacaMaxLeverage "crypto")).data = false := by
  refine ⟨by decide, ?_, by decide, by decide⟩
  rfl

/-- Claim C2 witness: on a Bybit-shaped broker (ceiling 100), a
requested leverage of 120 is rejected with the ceiling-naming error
and no adapter call, and a requested leverage of 10 is forwarded
unchanged in a single adapter dispatch whose successful result is
passed through. -/
theorem c2_leverage_gate_witness :
    execute_tool
      ⟨some (mkBroker "Bybit" true bybitMaxLeverage (.ok (.str "ORDER"))), 0,
       fun _ _ _ => .ok .null, .ok none, fun _ => .ok (), fun _ => .ok (), .ok ()⟩
      "place_crypto_order"
      [("symbol", .str "BTCUSDT"), ("side", .str "buy"), ("leverage", .num 120)] =
      (errObj ("Bybit" ++ " max leverage is " ++ toString (bybitMaxLeverage "crypto") ++
        "x, " ++ "you requested " ++ pyStr (.num 120) ++ "x"), []) ∧
    (execute_tool
      ⟨some (mkBroker "Bybit" true bybitMaxLeverage (.ok (.str "ORDER"))), 0,
       fun _ _ _ => .ok .null, .ok none, fun _ => .ok (), fun _ => .ok (), .ok ()⟩
      "place_crypto_order"
      [("symbol", .str "BTCUSDT"), ("side", .str "buy"), ("leverage", .num 10)]).2 =
      [.place_crypto_order (.str "BTCUSDT") (.str "buy") .null .null (.num 10)] ∧
    (execute_tool
      ⟨some (mkBroker "Bybit" true bybitMaxLeverage (.ok (.str "ORDER"))), 0,
       fun _ _ _ => .ok .null, .ok none, fun _ => .ok (), fun _ => .ok (), .ok ()⟩
      "place_crypto_order"
      [("symbol", .str "BTCUSDT"), ("side", .str "buy"), ("leverage", .num 10)]).1 =
      .str "ORDER" := by
  have h1 := ((c2_leverage_gate
    ⟨some (mkBroker "Bybit" true bybitMaxLeverage (.ok (.str "ORDER"))), 0,
     fun _ _ _ => .ok .null, .ok none, fun _ => .ok (), fun _ => .ok (), .ok ()⟩
    (mkBroker "Bybit" true bybitMaxLeverage (.ok (.str "ORDER")))
    [("symbol", .str "BTCUSDT"), ("side", .str "buy"), ("leverage", .num 120)]
    120 rfl rfl).1 (by decide)).1 rfl
  have h2 := (c2_leverage_gate
    ⟨some (mkBroker "Bybit" true bybitMaxLeverage (.ok (.str "ORDER"))), 0,
     fun _ _ _ => .ok .null, .ok none, fun _ => .ok (), fun _ => .ok (), .ok ()⟩
    (mkBroker "Bybit" true bybitMaxLeverage (.ok (.str "ORDER")))
    [("symbol", .str "BTCUSDT"), ("side", .str "buy"), ("leverage", .num 10)]
    10 rfl rfl).2 (by decide) (fun _ => rfl) (.str "BTCUSDT") (.str "buy") rfl rfl
  exact ⟨h1, h2.1, h2.2 (.str "ORDER") rfl⟩

/-- The Claude loop makes at most `fuel` model round-trips. -/
theorem claude_rounds_le (env : Env) (oracle : Nat → List CMsg → CResp) :
    ∀ fuel t msgs, (callClaudeWithTools env oracle t fuel msgs).2 ≤ fuel := by
  intro fuel
  induction fuel with
  | zero =>
    intro t msgs
    simp [callClaudeWithTools]
  | succ n ih =>
    intro t msgs
    simp only [callClaudeWithTools]
    by_cases h1 : (oracle t msgs).stop_reason = "end_turn"
    · simp [h1]
    · by_cases h2 : (oracle t msgs).stop_reason = "tool_use"
      · rw [h2, if_neg (by decide), if_pos rfl]
        have := ih (t + 1) (msgs ++
          [⟨"assistant", .blocks (oracle t msgs).content⟩,
           ⟨"user", .results (claudeToolResults env (oracle t msgs).content)⟩])
        dsimp only
        omega
      · rw [if_neg h1, if_neg h2]
        have := ih (t + 1) msgs
        dsimp only
        omega

/-- If the model never produces a tool-free final response
(`stop_reason` is never `end_turn`), the Claude loop exhausts exactly
its turn budget and returns the fixed advisory string. -/
theorem claude_advisory (env : Env) (oracle : Nat → List CMsg → CResp)
    (h : ∀ u m, (oracle u m).stop_reason ≠ "end_turn") :
    ∀ fuel t msgs, callClaudeWithTools env oracle t fuel msgs = ("Max turns reached.", fuel) := by
  intro fuel
  induction fuel with
  | zero =>
    intro t msgs
    simp [callClaudeWithTools]
  | succ n ih =>
    intro t msgs
    simp only [callClaudeWithTools]
    rw [if_neg (h t msgs)]
    by_cases h2 : (oracle t msgs).stop_reason = "tool_use"
    · rw [if_pos h2]
      rw [ih]
    · rw [if_neg h2]
      rw [ih]

/-- The DeepSeek loop makes at most `fuel` model round-trips. -/
theorem deepseek_rounds_le (env : Env) (oracle : Nat → List DMsg → DMessage) :
    ∀ fuel t msgs, (callDeepseekWithTools env oracle t fuel msgs).2 ≤ fuel := by
  intro fuel
  induction fuel with
  | zero =>
    intro t msgs
    simp [callDeepseekWithTools]
  | succ n ih =>
    intro t msgs
    simp only [callDeepseekWithTools]
    by_cases h1 : (oracle t msgs).tool_calls.isEmpty = true
    · simp [h1]
    · rw [if_neg h1]
      rcases hp : deepseekProcessCalls env (oracle t msgs).tool_calls
          (msgs ++ [.assistant (oracle t msgs)]) with ⟨msgs', _ | e⟩
      · rw [hp]
        dsimp only
        have := ih (t + 1) msgs'
        omega
      · rw [hp]
        dsimp only
        omega

/-- Processing a list of tool calls whose argument strings all parse
appends exactly one `role:"tool"` message per call, in call order. -/
theorem deepseekProcessCalls_ok (env : Env) :
    ∀ (calls : List DToolCall) (msgs : List DMsg),
      (∀ tc ∈ calls, (tc.args).isOk = true) →
      deepseekProcessCalls env calls msgs =
        (msgs ++ calls.map (fun tc =>
          .tool tc.id (dumps (execute_tool env tc.name (tc.args.toOption.getD [])).1)), none) := by
  intro calls
  induction calls with
  | nil =>
    intro msgs _
    simp [deepseekProcessCalls]
  | cons tc rest ih =>
    intro msgs h
    have htc : (tc.args).isOk = true := h tc (List.mem_cons_self tc rest)
    rcases ha : tc.args with e | a
    · rw [ha] at htc
      simp [Except.isOk, Except.toBool] at htc
    · simp only [deepseekProcessCalls, ha]
      rw [ih (msgs ++ [DMsg.tool tc.id (dumps (execute_tool env tc.name a).1)])
        (fun x hx => h x (List.mem_cons_of_mem tc hx))]
      simp [ha, Except.toOption]

/-- If the model requests at least one tool call on every turn and
every argument string parses, the DeepSeek loop exhausts exactly its
turn budget and returns the fixed advisory string. -/
theorem deepseek_advisory (env : Env) (oracle : Nat → List DMsg → DMessage)
    (h : ∀ u m, (oracle u m).tool_calls ≠ [] ∧
      ∀ tc ∈ (oracle u m).tool_calls, (tc.args).isOk = true) :
    ∀ fuel t msgs,
      callDeepseekWithTools env oracle t fuel msgs = (.ok "Max turns reached.", fuel) := by
  intro fuel
  induction fuel with
  | zero =>
    intro t msgs
    simp [callDeepseekWithTools]
  | succ n ih =>
    intro t msgs
    simp only [callDeepseekWithTools]
    rw [if_neg (by simpa using (h t msgs).1)]
    rw [deepseekProcessCalls_ok env (oracle t msgs).tool_calls
      (msgs ++ [DMsg.assistant (oracle t msgs)]) (h t msgs).2]
    dsimp only
    rw [ih]

/-- Claim C6: both orchestrator backend loops perform at most
`max_turns` model round-trips for every environment, every initial
history and every sequence of model responses; and whenever the model
never yields a tool-free final response (including the oracle that
requests a tool call on every turn, with well-formed argument strings
on the DeepSeek side), the loop exhausts exactly its budget and
returns the fixed advisory string "Max turns reached." instead of
raising an error. -/
theorem c6_orchestrator_turn_bound (env : Env) (oracleC : Nat → List CMsg → CResp)
    (oracleD : Nat → List DMsg → DMessage) (msgsC : List CMsg) (msgsD : List DMsg)
    (maxTurns t : Nat) :
    (callClaudeWithTools env oracleC t maxTurns msgsC).2 ≤ maxTurns ∧
    (callDeepseekWithTools env oracleD t maxTurns msgsD).2 ≤ maxTurns ∧
    ((∀ u m, (oracleC u m).stop_reason ≠ "end_turn") →
      callClaudeWithTools env oracleC t maxTurns msgsC = ("Max turns reached.", maxTurns)) ∧
    ((∀ u m, (oracleD u m).tool_calls ≠ [] ∧
        ∀ tc ∈ (oracleD u m).tool_calls, (tc.args).isOk = true) →
      callDeepseekWithTools env oracleD t maxTurns msgsD = (.ok "Max turns reached.", maxTurns)) :=
  ⟨claude_rounds_le env oracleC maxTurns t msgsC,
   deepseek_rounds_le env oracleD maxTurns t msgsD,
   fun h => claude_advisory env oracleC h maxTurns t msgsC,
   fun h => deepseek_advisory env oracleD h maxTurns t msgsD⟩

/-- Claim C6 witness: oracles that request a tool call on every turn
drive both loops through exactly two round-trips (budget 2) to the
advisory string. -/
theorem c6_orchestrator_turn_bound_witness :
    callClaudeWithTools
      ⟨some (mkBroker "Bybit" true bybitMaxLeverage (.ok .null)), 0,
       fun _ _ _ => .ok .null, .ok none, fun _ => .ok (), fun _ => .ok (), .ok ()⟩
      (fun _ _ => ⟨"tool_use", [.toolUse "1" "get_account" []]⟩) 0 2 [] =
      ("Max turns reached.", 2) ∧
    callDeepseekWithTools
      ⟨some (mkBroker "Bybit" true bybitMaxLeverage (.ok .null)), 0,
       fun _ _ _ => .ok .null, .ok none, fun _ => .ok (), fun _ => .ok (), .ok ()⟩
      (fun _ _ => ⟨"", [⟨"1", "get_account", .ok []⟩]⟩) 0 2 [] =
      (.ok "Max turns reached.", 2) := by
  have h := c6_orchestrator_turn_bound
    ⟨some (mkBroker "Bybit" true bybitMaxLeverage (.ok .null)), 0,
     fun _ _ _ => .ok .null, .ok none, fun _ => .ok (), fun _ => .ok (), .ok ()⟩
    (fun _ _ => ⟨"tool_use", [.toolUse "1" "get_account" []]⟩)
    (fun _ _ => ⟨"", [⟨"1", "get_account", .ok []⟩]⟩) [] [] 2 0
  refine ⟨h.2.2.1 (fun _ _ => by decide), h.2.2.2 (fun _ _ => ⟨by simp, ?_⟩)⟩
  intro tc htc
  rw [List.mem_singleton.mp htc]
  rfl

/-- The correlation id of a Protocol B history message, when it is a
tool-result message. -/
def dMsgId : DMsg → Option String
  | .tool i _ => some i
  | _ => none

/-- Claim C7: when one assistant turn carries several tool calls, the
orchestrator executes every one of them and appends exactly one
correlated tool-result message per call, in the order the calls
appeared.  Protocol A: the single user message appended after the
assistant blocks carries one `tool_result` entry per `tool_use` block,
whose id sequence equals the block id sequence and whose content is
the serialized executor result of that block's call.  Protocol B: one
`role:"tool"` message per entry of `tool_calls`, appended after the
assistant message, with ids in call order. -/
theorem c7_multi_tool_results (env : Env) (oracleC : Nat → List CMsg → CResp)
    (oracleD : Nat → List DMsg → DMessage) (blocks : List CBlock) (calls : List DToolCall)
    (t fuel : Nat) (msgsC : List CMsg) (msgsD : List DMsg) :
    ((claudeToolResults env blocks).map Prod.fst =
      blocks.filterMap (fun b => match b with | .toolUse i _ _ => some i | _ => none)) ∧
    (∀ p ∈ claudeToolResults env blocks, ∃ nm input,
      CBlock.toolUse p.1 nm input ∈ blocks ∧ p.2 = dumps (execute_tool env nm input).1) ∧
    ((oracleC t msgsC).stop_reason = "tool_use" →
      callClaudeWithTools env oracleC t (fuel + 1) msgsC =
        ((callClaudeWithTools env oracleC (t + 1) fuel
            (msgsC ++ [⟨"assistant", .blocks (oracleC t msgsC).content⟩,
              ⟨"user", .results (claudeToolResults env (oracleC t msgsC).content)⟩])).1,
         (callClaudeWithTools env oracleC (t + 1) fuel
            (msgsC ++ [⟨"assistant", .blocks (oracleC t msgsC).content⟩,
              ⟨"user", .results (claudeToolResults env (oracleC t msgsC).content)⟩])).2 + 1)) ∧
    ((∀ tc ∈ calls, (tc.args).isOk = true) →
      deepseekProcessCalls env calls msgsD =
        (msgsD ++ calls.map (fun tc =>
          DMsg.tool tc.id (dumps (execute_tool env tc.name (tc.args.toOption.getD [])).1)),
         none) ∧
      (calls.map (fun tc =>
        DMsg.tool tc.id (dumps (execute_tool env tc.name (tc.args.toOption.getD [])).1))).map
          dMsgId =
        calls.map (fun tc => some tc.id)) ∧
    ((oracleD t msgsD).tool_calls ≠ [] →
      (∀ tc ∈ (oracleD t msgsD).tool_calls, (tc.args).isOk = true) →
      callDeepseekWithTools env oracleD t (fuel + 1) msgsD =
        ((callDeepseekWithTools env oracleD (t + 1) fuel
            (msgsD ++ [DMsg.assistant (oracleD t msgsD)] ++
              (oracleD t msgsD).tool_calls.map (fun tc =>
                DMsg.tool tc.id (dumps (execute_tool env tc.name (tc.args.toOption.getD [])).1)))).1,
         (callDeepseekWithTools env oracleD (t + 1) fuel
            (msgsD ++ [DMsg.assistant (oracleD t msgsD)] ++
              (oracleD t msgsD).tool_calls.map (fun tc =>
                DMsg.tool tc.id (dumps (execute_tool env tc.name (tc.args.toOption.getD [])).1)))).2
           + 1)) := by
  refine ⟨?_, ?_, ?_, ?_, ?_⟩
  · induction blocks with
    | nil => simp [claudeToolResults]
    | cons b bs ih =>
      cases b with
      | text s => simpa [claudeToolResults] using ih
      | toolUse i nm input => simpa [claudeToolResults] using ih
  · intro p hp
    unfold claudeToolResults at hp
    rcases List.mem_filterMap.mp hp with ⟨b, hb, hf⟩
    cases b with
    | text s => simp at hf
    | toolUse i nm input =>
      simp only [Option.some.injEq] at hf
      subst hf
      exact ⟨nm, input, hb, rfl⟩
  · intro h
    simp only [callClaudeWithTools]
    rw [h, if_neg (by decide), if_pos rfl]
  · intro h
    exact ⟨deepseekProcessCalls_ok env calls msgsD h, by simp [List.map_map, Function.comp, dMsgId]⟩
  · intro hne h
    simp only [callDeepseekWithTools]
    rw [if_neg (by simpa using hne)]
    rw [deepseekProcessCalls_ok env (oracleD t msgsD).tool_calls
      (msgsD ++ [DMsg.assistant (oracleD t msgsD)]) h]

/-- Claim C7 witness: a turn carrying two tool calls produces exactly
two tool-result messages, in call order, with matching ids. -/
theorem c7_multi_tool_results_witness :
    deepseekProcessCalls
      ⟨some (mkBroker "Bybit" true bybitMaxLeverage (.ok .null)), 0,
       fun _ _ _ => .ok .null, .ok none, fun _ => .ok (), fun _ => .ok (), .ok ()⟩
      [⟨"1", "get_account", .ok []⟩, ⟨"2", "frobnicate", .ok []⟩] [] =
      ([] ++ [DToolCall.mk "1" "get_account" (.ok []),
        DToolCall.mk "2" "frobnicate" (.ok [])].map (fun tc =>
          DMsg.tool tc.id (dumps (execute_tool
            ⟨some (mkBroker "Bybit" true bybitMaxLeverage (.ok .null)), 0,
             fun _ _ _ => .ok .null, .ok none, fun _ => .ok (), fun _ => .ok (), .ok ()⟩
            tc.name (tc.args.toOption.getD [])).1)),
       none) ∧
    ([DToolCall.mk "1" "get_account" (.ok []),
      DToolCall.mk "2" "frobnicate" (.ok [])].map (fun tc =>
        DMsg.tool tc.id (dumps (execute_tool
          ⟨some (mkBroker "Bybit" true bybitMaxLeverage (.ok .null)), 0,
           fun _ _ _ => .ok .null, .ok none, fun _ => .ok (), fun _ => .ok (), .ok ()⟩
          tc.name (tc.args.toOption.getD [])).1))).map dMsgId =
      [DToolCall.mk "1" "get_account" (.ok []),
       DToolCall.mk "2" "frobnicate" (.ok [])].map (fun tc => some tc.id) :=
  (c7_multi_tool_results
    ⟨some (mkBroker "Bybit" true bybitMaxLeverage (.ok .null)), 0,
     fun _ _ _ => .ok .null, .ok none, fun _ => .ok (), fun _ => .ok (), .ok ()⟩
    (fun _ _ => ⟨"end_turn", []⟩) (fun _ _ => ⟨"", []⟩) []
    [⟨"1", "get_account", .ok []⟩, ⟨"2", "frobnicate", .ok []⟩]
    0 0 [] []).2.2.2.1 (by decide)
